import Mathlib

/-!
# Verification development for `unidade_1/assets/js/script_unidade.js`

The script has two halves: the highlight overlay (`animateHighlight`, `debounce`)
and the 3D flipbook (`initializeFlipbook` with its inner functions, plus the
document-level `keydown` listener).

Host facilities (DOM lookups, timers, animation frames, layout measurements) are
embedded as explicit state:

* element objects are records; a lookup that may return `null` is an `Option`;
* `setTimeout` / `requestAnimationFrame` callbacks are queued in the state and run
  by an explicit `advance` / frame step on a virtual clock (milliseconds in `Nat`);
* a thrown exception is an `Except.error` (or a dedicated constructor of the
  result type when the effects made before the throw matter).
-/

namespace Flipbook

/-! ## Element objects -/

/-- Function objects installed as click handlers.  Every call of
`initializeFlipbook` creates fresh closures; `inst` is the number of the call that
created the function object, so handlers of different calls are different objects. -/
inductive Handler where
  | pageClick (inst : Nat) (index : Nat)
  | goNextPage (inst : Nat)
  | goPrevPage (inst : Nat)
  | toggleFullscreen (inst : Nat)
  | closeFullscreen (inst : Nat)
  | closeArrow (inst : Nat)
  deriving DecidableEq, Repr

/-- A button element: `disabled`, `style.transform`, and the single `onclick` slot. -/
structure Button where
  disabled : Bool
  transform : String
  onclick : Option Handler
  deriving DecidableEq, Repr

/-- A `.page` element: whether `classList` contains `flipped`, the inline
`style.zIndex` (`none` when unset) and its registered click listeners. -/
structure PageEl where
  flipped : Bool
  zIndex : Option Int
  listeners : List Handler
  deriving DecidableEq, Repr

/-- The `#book` element: `style.transform` and the static node list
`book.querySelectorAll('.page')`. -/
structure Book where
  transform : String
  pages : List PageEl
  deriving DecidableEq, Repr

/-- The `.high-fidelity-3d-flipbook` element: whether `classList` contains
`fullscreen-mode`, and its registered click listeners. -/
structure Container where
  fullscreenMode : Bool
  listeners : List Handler
  deriving DecidableEq, Repr

/-- A pending `setTimeout` callback of `goPrevPage`: it fires after `remaining`
more milliseconds and then assigns `zIndex` to `pages[page].style.zIndex`. -/
structure Timer where
  remaining : Nat
  page : Nat
  zIndex : Int
  deriving DecidableEq, Repr

/-- `target.addEventListener('click', h)`: appends the listener unless the very same
function object is already registered. -/
def addEventListener (ls : List Handler) (h : Handler) : List Handler :=
  if h ∈ ls then ls else ls ++ [h]

/-! ## The closure state of one `initializeFlipbook` call -/

/-- The variables captured by the inner functions of one `initializeFlipbook` call
(the element objects and `currentLocation`, `numOfPages`, `maxLocation`), together
with the timers that `goPrevPage` has scheduled. `closeBtn` is the free identifier
of line 179, resolved through the global object (`none`: unresolvable). -/
structure State where
  flipbookContainer : Container
  prevBtn : Button
  nextBtn : Button
  book : Book
  fullscreenBtn : Button
  closeBtn : Option Button
  currentLocation : Int
  numOfPages : Int
  maxLocation : Int
  timers : List Timer
  inst : Nat
  deriving DecidableEq, Repr

/-- JavaScript indexing `pages[i]`: `undefined` (`none`) outside `0 .. length-1`. -/
def item (pages : List PageEl) (i : Int) : Option PageEl :=
  if 0 ≤ i then pages[i.toNat]? else none

/-- Mutation of the page object at position `i` of the node list. -/
def modifyPage (f : PageEl → PageEl) (i : Nat) (s : State) : State :=
  { s with book := { s.book with pages := s.book.pages.modify f i } }

/-- `openBook()`, lines 102-106. -/
def openBook (s : State) : State :=
  { s with
    book := { s.book with transform := "translateX(50%)" }
    prevBtn := { s.prevBtn with transform := "translateX(-120px)" }
    nextBtn := { s.nextBtn with transform := "translateX(120px)" } }

/-- `closeBook(isAtBeginning)`, lines 108-116. -/
def closeBook (isAtBeginning : Bool) (s : State) : State :=
  { s with
    book := { s.book with
      transform := if isAtBeginning then "translateX(0%)" else "translateX(100%)" }
    prevBtn := { s.prevBtn with transform := "translateX(0)" }
    nextBtn := { s.nextBtn with transform := "translateX(0)" } }

/-- `updateButtons()`, lines 152-155. -/
def updateButtons (s : State) : State :=
  { s with
    prevBtn := { s.prevBtn with disabled := decide (s.currentLocation = 1) }
    nextBtn := { s.nextBtn with disabled := decide (s.currentLocation = s.maxLocation) } }

/-- `goNextPage()`, lines 118-132.  `pages[currentLocation - 1]` being `undefined`
makes `pageToFlip.classList` throw a `TypeError`. -/
def goNextPage (s : State) : Except String State :=
  if s.currentLocation < s.maxLocation then
    let s1 := if s.currentLocation = 1 then openBook s else s
    match item s1.book.pages (s1.currentLocation - 1) with
    | none => .error "TypeError"
    | some _ =>
      let s2 := modifyPage
        (fun pageToFlip => { pageToFlip with flipped := true, zIndex := some s1.currentLocation })
        (s1.currentLocation - 1).toNat s1
      let s3 := if s2.currentLocation = s2.numOfPages then closeBook false s2 else s2
      let s4 := { s3 with currentLocation := s3.currentLocation + 1 }
      .ok (updateButtons s4)
  else .ok s

/-- `goPrevPage()`, lines 134-150.  The `setTimeout(..., 300)` callback is queued as a
`Timer` holding the captured `pageToUnflip` (by position) and `originalZIndex`. -/
def goPrevPage (s : State) : Except String State :=
  if s.currentLocation > 1 then
    let s1 :=
      if s.currentLocation = 2 then closeBook true s
      else if s.currentLocation = s.maxLocation then openBook s
      else s
    match item s1.book.pages (s1.currentLocation - 2) with
    | none => .error "TypeError"
    | some _ =>
      let s2 := modifyPage (fun pageToUnflip => { pageToUnflip with flipped := false })
        (s1.currentLocation - 2).toNat s1
      let originalZIndex := s2.numOfPages - (s2.currentLocation - 2)
      let s3 := { s2 with
        timers := s2.timers ++
          [Timer.mk 300 (s2.currentLocation - 2).toNat originalZIndex] }
      let s4 := { s3 with currentLocation := s3.currentLocation - 1 }
      .ok (updateButtons s4)
  else .ok s

/-- The click listener of a page, lines 90-99: `clientX` is `event.clientX`, `left`
and `width` are those of `page.getBoundingClientRect()`. -/
def pageClick (clientX left width : ℚ) (s : State) : Except String State :=
  let clickX := clientX - left
  if clickX < width / 2 then goPrevPage s else goNextPage s

/-- The callback of a timer: `pageToUnflip.style.zIndex = originalZIndex`. -/
def fire (s : State) (t : Timer) : State :=
  modifyPage (fun pageToUnflip => { pageToUnflip with zIndex := some t.zIndex }) t.page s

/-- Let `ms` milliseconds pass with no other event: the timers that are due run in
the order they were scheduled (all have the same delay, so this is the order in
which they are due), the others come `ms` closer. -/
def advance (ms : Nat) (s : State) : State :=
  let due := s.timers.filter (fun t => decide (t.remaining ≤ ms))
  let rest := (s.timers.filter (fun t => !decide (t.remaining ≤ ms))).map
    (fun t => { t with remaining := t.remaining - ms })
  { due.foldl fire s with timers := rest }

/-- The events that drive one flipbook after its initialization. -/
inductive Op where
  | next
  | prev
  | click (clientX left width : ℚ)
  | wait (ms : Nat)

/-- The effect of one event. -/
def step (s : State) : Op → Except String State
  | .next => goNextPage s
  | .prev => goPrevPage s
  | .click clientX left width => pageClick clientX left width s
  | .wait ms => .ok (advance ms s)

/-- The effect of a sequence of events; an exception ends the run. -/
def run : List Op → State → Except String State
  | [], s => .ok s
  | op :: ops, s =>
    match step s op with
    | .error e => .error e
    | .ok s1 => run ops s1

/-! ## Initialization -/

/-- What the lookups of `initializeFlipbook` find in the document, the console, and
the number of `initializeFlipbook` calls made so far. -/
structure Document where
  flipbookContainer : Option Container
  prevBtn : Option Button
  nextBtn : Option Button
  book : Option Book
  fullscreenBtn : Option Button
  closeBtn : Option Button
  console : List String
  calls : Nat
  deriving DecidableEq, Repr

/-- How a call of `initializeFlipbook` ends, with the document as the call leaves it. -/
inductive InitResult where
  /-- Line 65: no flipbook on the page. -/
  | noFlipbook (doc : Document)
  /-- Line 71: `book` is `null`, `book.querySelectorAll` throws. -/
  | typeError (doc : Document)
  /-- Lines 74-77: `console.error` and `return`. -/
  | aborted (doc : Document)
  /-- Line 179: `closeBtn` is unresolvable; everything before it has run. -/
  | referenceError (s : State)
  /-- The call ran to its end. -/
  | initialized (s : State)
  deriving DecidableEq, Repr

/-- The `pages.forEach` of lines 87-100: stacking order and click listener per page. -/
def setupPages (inst : Nat) (numOfPages : Int) : Nat → List PageEl → List PageEl
  | _, [] => []
  | index, page :: rest =>
    { page with
      zIndex := some (numOfPages - index)
      listeners := addEventListener page.listeners (.pageClick inst index) }
      :: setupPages inst numOfPages (index + 1) rest

/-- The diagnostic of line 75. -/
def initFailedMessage : String :=
  "Um ou mais elementos do flipbook não foram encontrados. A inicialização falhou."

/-- `initializeFlipbook()`, lines 63-185. -/
def initializeFlipbook (doc : Document) : InitResult :=
  match doc.flipbookContainer with
  | none => .noFlipbook doc
  | some flipbookContainer =>
    match doc.book with
    | none => .typeError doc
    | some book =>
      match doc.prevBtn, doc.nextBtn, doc.fullscreenBtn with
      | some prevBtn, some nextBtn, some fullscreenBtn =>
        if book.pages.length = 0 then
          .aborted { doc with console := doc.console ++ [initFailedMessage] }
        else
          let inst := doc.calls
          let numOfPages : Int := book.pages.length
          let s : State :=
            { flipbookContainer := flipbookContainer
              prevBtn := { prevBtn with onclick := some (.goPrevPage inst) }
              nextBtn := { nextBtn with onclick := some (.goNextPage inst) }
              book := { book with pages := setupPages inst numOfPages 0 book.pages }
              fullscreenBtn := { fullscreenBtn with onclick := some (.toggleFullscreen inst) }
              closeBtn := doc.closeBtn
              currentLocation := 1
              numOfPages := numOfPages
              maxLocation := numOfPages + 1
              timers := []
              inst := inst }
          match doc.closeBtn with
          | none => .referenceError s
          | some closeBtn =>
            .initialized (updateButtons
              { s with
                closeBtn := some { closeBtn with onclick := some (.closeArrow inst) }
                flipbookContainer :=
                  { flipbookContainer with
                    listeners :=
                      addEventListener flipbookContainer.listeners (.closeFullscreen inst) } })
      | _, _, _ => .aborted { doc with console := doc.console ++ [initFailedMessage] }

/-- The flipbook a call has set up: its closures exist (and are already installed on
the pages and on the navigation buttons) from line 178 on, also when line 179 throws. -/
def InitResult.state? : InitResult → Option State
  | .referenceError s => some s
  | .initialized s => some s
  | _ => none

/-- The document after the call, `doc` being the document before it: the elements as
the call leaves them, and one more call counted. -/
def InitResult.document (doc : Document) : InitResult → Document
  | .noFlipbook d => { d with calls := doc.calls + 1 }
  | .typeError d => { d with calls := doc.calls + 1 }
  | .aborted d => { d with calls := doc.calls + 1 }
  | .referenceError s | .initialized s =>
    { flipbookContainer := some s.flipbookContainer
      prevBtn := some s.prevBtn
      nextBtn := some s.nextBtn
      book := some s.book
      fullscreenBtn := some s.fullscreenBtn
      closeBtn := s.closeBtn
      console := doc.console
      calls := doc.calls + 1 }

/-- Whether the call let an exception propagate to its caller. -/
def InitResult.threw : InitResult → Bool
  | .typeError _ => true
  | .referenceError _ => true
  | _ => false

/-! ## Invariants -/

/-- The invariant of the flipbook state machine. -/
structure Inv (s : State) : Prop where
  num : s.numOfPages = s.book.pages.length
  max : s.maxLocation = s.numOfPages + 1
  lo : 1 ≤ s.currentLocation
  hi : s.currentLocation ≤ s.maxLocation
  timers : ∀ t ∈ s.timers, t.page < s.book.pages.length ∧ t.zIndex = s.numOfPages - t.page

/-- The buttons reflect the location, as `updateButtons` leaves them. -/
def ButtonsOk (s : State) : Prop :=
  (s.prevBtn.disabled = true ↔ s.currentLocation = 1) ∧
  (s.nextBtn.disabled = true ↔ s.currentLocation = s.maxLocation)

/-- Every page in front of the current location carries the class `flipped`. -/
def FlippedBelow (s : State) : Prop :=
  ∀ i : Nat, (i : Int) < s.currentLocation - 1 →
    ∃ p, s.book.pages[i]? = some p ∧ p.flipped = true

end Flipbook

namespace Flipbook

/-! ## Sample documents -/

/-- A button as the markup gives it: enabled, no inline transform, no handler. -/
def plainButton : Button := { disabled := false, transform := "", onclick := none }

/-- A page as the markup gives it. -/
def plainPage : PageEl := { flipped := false, zIndex := none, listeners := [] }

/-- A document holding every element of the flipbook (and a `closeBtn`), with `n` pages. -/
def sampleDocument (n : Nat) : Document :=
  { flipbookContainer := some { fullscreenMode := false, listeners := [] }
    prevBtn := some plainButton
    nextBtn := some plainButton
    book := some { transform := "", pages := List.replicate n plainPage }
    fullscreenBtn := some plainButton
    closeBtn := some plainButton
    console := []
    calls := 0 }

/-- The flipbook that `initializeFlipbook` sets up on `sampleDocument 2`. -/
def sampleState : State :=
  { flipbookContainer := { fullscreenMode := false, listeners := [.closeFullscreen 0] }
    prevBtn := { disabled := true, transform := "", onclick := some (.goPrevPage 0) }
    nextBtn := { disabled := false, transform := "", onclick := some (.goNextPage 0) }
    book :=
      { transform := ""
        pages :=
          [ { flipped := false, zIndex := some 2, listeners := [.pageClick 0 0] },
            { flipped := false, zIndex := some 1, listeners := [.pageClick 0 1] } ] }
    fullscreenBtn := { disabled := false, transform := "", onclick := some (.toggleFullscreen 0) }
    closeBtn := some { disabled := false, transform := "", onclick := some (.closeArrow 0) }
    currentLocation := 1
    numOfPages := 2
    maxLocation := 3
    timers := []
    inst := 0 }

end Flipbook

namespace Fullscreen

/-! ## The document tree, as far as the fullscreen mode moves elements in it

Nodes are numbered.  A node knows its parent and the ordered list of its children,
as in the DOM standard. -/

/-- The tree: `parent n` is the parent of node `n` (`none` for a root or a detached
node), `children n` its child list, and `height` bounds the depth of any node (it is
the fuel of the ancestor walk). -/
structure Dom where
  parent : Nat → Option Nat
  children : Nat → List Nat
  height : Nat

/-- The element following `n` in `l`, if any. -/
def following (n : Nat) : List Nat → Option Nat
  | [] => none
  | x :: rest => if x = n then rest.head? else following n rest

/-- `n.nextSibling`. -/
def Dom.nextSibling (d : Dom) (n : Nat) : Option Nat :=
  match d.parent n with
  | none => none
  | some p => following n (d.children p)

/-- Whether `a` is an inclusive ancestor of `n`, walking up at most `fuel` links. -/
def Dom.isInclusiveAncestor (d : Dom) : Nat → Nat → Nat → Bool
  | 0, a, n => decide (a = n)
  | fuel + 1, a, n =>
    decide (a = n) ||
      match d.parent n with
      | none => false
      | some p => d.isInclusiveAncestor fuel a p

/-- Removal of node `n` from its parent. -/
def Dom.remove (d : Dom) (n : Nat) : Dom :=
  match d.parent n with
  | none => d
  | some p =>
    { d with
      parent := Function.update d.parent n none
      children := Function.update d.children p ((d.children p).erase n) }

/-- The list `l` with `x` put in front of its element `r`. -/
def insertBeforeIn (x r : Nat) : List Nat → List Nat
  | [] => [x]
  | y :: rest => if y = r then x :: y :: rest else y :: insertBeforeIn x r rest

/-- `parent.insertBefore(node, child)` after the DOM standard: the pre-insertion
checks that can fail for element nodes, the adjustment of a reference child that is the
node itself, the removal of the node from its old parent and its insertion. -/
def Dom.insertBefore (d : Dom) (parent node : Nat) (child : Option Nat) : Except String Dom :=
  if d.isInclusiveAncestor d.height node parent then .error "HierarchyRequestError"
  else if child.any (fun c => decide (d.parent c ≠ some parent)) then .error "NotFoundError"
  else
    let referenceChild := if child = some node then d.nextSibling node else child
    let d1 := d.remove node
    let siblings := d1.children parent
    .ok { d1 with
          parent := Function.update d1.parent node (some parent)
          children := Function.update d1.children parent
            (match referenceChild with
             | none => siblings ++ [node]
             | some r => insertBeforeIn node r siblings) }

/-- `parent.appendChild(node)`. -/
def Dom.appendChild (d : Dom) (parent node : Nat) : Except String Dom :=
  d.insertBefore parent node none

/-- What the fullscreen functions read and write: the tree, `document.body`, the
flipbook container, the result of `document.getElementById('flipbook-placeholder')`
and whether the container's `classList` contains `fullscreen-mode`. -/
structure World where
  dom : Dom
  body : Nat
  flipbookContainer : Nat
  placeholder : Option Nat
  fullscreenMode : Bool

/-- The statement
`placeholder.parentElement.insertBefore(flipbookContainer, placeholder.nextSibling)`
of lines 164 and 192; dereferencing `null` throws a `TypeError`. -/
def relocateAfterPlaceholder (w : World) : Except String World :=
  match w.placeholder with
  | none => .error "TypeError"
  | some placeholder =>
    match w.dom.parent placeholder with
    | none => .error "TypeError"
    | some parentElement =>
      match w.dom.insertBefore parentElement w.flipbookContainer
          (w.dom.nextSibling placeholder) with
      | .error e => .error e
      | .ok d => .ok { w with dom := d }

/-- `toggleFullscreen()`, lines 157-166. -/
def toggleFullscreen (w : World) : Except String World :=
  let isFullscreen := !w.fullscreenMode
  let w1 := { w with fullscreenMode := isFullscreen }
  if isFullscreen then
    match w1.dom.appendChild w1.body w1.flipbookContainer with
    | .error e => .error e
    | .ok d => .ok { w1 with dom := d }
  else
    relocateAfterPlaceholder w1

/-- `closeFullscreen(event)`, lines 168-173, `target` being `event.target`. -/
def closeFullscreen (target : Nat) (w : World) : World :=
  if target = w.flipbookContainer then { w with fullscreenMode := false } else w

/-- The document's `keydown` listener, lines 187-195, `key` being `event.key`; the
selector `.high-fidelity-3d-flipbook.fullscreen-mode` matches the container exactly
when it carries the class. -/
def onKeydown (key : String) (w : World) : Except String World :=
  if key = "Escape" ∧ w.fullscreenMode = true then
    relocateAfterPlaceholder { w with fullscreenMode := false }
  else .ok w

/-- The tree around the container and the placeholder `ph` is well formed: `ph` is a
child of its parent `p0` and the container a child of its parent `q`, in no other
child list; the child lists of `p0` and `q` have no repetition; the children of `p0`
have `p0` as parent; the container is not the placeholder and is an ancestor neither
of the body nor of `p0`. -/
structure WellPlaced (w : World) (ph p0 q : Nat) : Prop where
  placeholder : w.placeholder = some ph
  parent_placeholder : w.dom.parent ph = some p0
  parent_container : w.dom.parent w.flipbookContainer = some q
  distinct : ph ≠ w.flipbookContainer
  mem_placeholder : ph ∈ w.dom.children p0
  nodup : (w.dom.children p0).Nodup
  nodup_container : (w.dom.children q).Nodup
  unique : ∀ x, w.flipbookContainer ∈ w.dom.children x → x = q
  parent_of_child : ∀ r ∈ w.dom.children p0, w.dom.parent r = some p0
  not_above_body : w.dom.isInclusiveAncestor w.dom.height w.flipbookContainer w.body = false
  not_above_parent : w.dom.isInclusiveAncestor w.dom.height w.flipbookContainer p0 = false

/-- A page: body `0` holds a wrapper `1`, which holds the placeholder `2` followed by
the flipbook container `3`, which holds the book `4`. -/
def sampleWorld : World :=
  { dom :=
      { parent := fun n =>
          if n = 1 then some 0 else if n = 2 then some 1 else if n = 3 then some 1
          else if n = 4 then some 3 else none
        children := fun n =>
          if n = 0 then [1] else if n = 1 then [2, 3] else if n = 3 then [4] else []
        height := 3 }
    body := 0
    flipbookContainer := 3
    placeholder := some 2
    fullscreenMode := false }

/-- What the claims observe of a world: the marker class, the parent of the container,
the sibling following placeholder `2`, and the child lists of nodes `0` and `1`. -/
def observe (w : World) : Bool × Option Nat × Option Nat × List Nat × List Nat :=
  (w.fullscreenMode, w.dom.parent w.flipbookContainer, w.dom.nextSibling 2,
    w.dom.children 0, w.dom.children 1)

end Fullscreen

namespace Debounce

/-! ## `debounce(func, wait)` on a virtual clock

`α` is the type of the argument list of a call.  The host's timer queue and the calls
of `func` are part of the state; time and `wait` are in whole milliseconds. -/

/-- A pending `setTimeout(later, wait)`: the timer id, the time at which it is due and
the `args` captured by its `later`. -/
structure Pending (α : Type) where
  id : Nat
  due : Nat
  args : α
  deriving DecidableEq, Repr

/-- The clock, the host's timer queue (in order of creation) with the next timer id,
the closure variable `timeout` (`none`: `undefined`), and the record of the executions
of `func`: time and arguments. -/
structure State (α : Type) where
  now : Nat
  nextId : Nat
  pending : List (Pending α)
  timeout : Option Nat
  executed : List (Nat × α)
  deriving DecidableEq, Repr

/-- The state right after `debounce(func, wait)` has returned, at time `now`. -/
def fresh (α : Type) (now : Nat) : State α :=
  { now := now, nextId := 1, pending := [], timeout := none, executed := [] }

/-- `clearTimeout(id)`: cancels the timer with that id, if it is pending. -/
def clearTimeout {α : Type} (id : Option Nat) (s : State α) : State α :=
  { s with pending := s.pending.filter (fun p => !decide (some p.id = id)) }

/-- `later`, lines 43-46, for the call that captured `args`. -/
def later {α : Type} (args : α) (s : State α) : State α :=
  let s1 := clearTimeout s.timeout s
  { s1 with executed := s1.executed ++ [(s1.now, args)] }

/-- The delay the host gives a timer set by `setTimeout(handler, wait)`: the timeout is
taken as a 32-bit signed integer, so `wait` is reduced modulo `2 ^ 32` into the range
`-2 ^ 31 .. 2 ^ 31 - 1`, and a negative result counts as `0`. -/
def timerDelay (wait : Nat) : Nat :=
  if wait % 2 ^ 32 < 2 ^ 31 then wait % 2 ^ 32 else 0

/-- `executedFunction(...args)`, lines 42-49. -/
def executedFunction {α : Type} (wait : Nat) (args : α) (s : State α) : State α :=
  let s1 := clearTimeout s.timeout s
  { s1 with
    nextId := s1.nextId + 1
    pending :=
      s1.pending ++ [{ id := s1.nextId, due := s1.now + timerDelay wait, args := args }]
    timeout := some s1.nextId }

/-- The pending timer that fires next when time runs up to `t`: the earliest one due
by `t`, the older one among equals. -/
def nextDue {α : Type} (t : Nat) (pending : List (Pending α)) : Option (Pending α) :=
  pending.foldl
    (fun best p =>
      if p.due ≤ t then
        match best with
        | none => some p
        | some b => if p.due < b.due then some p else some b
      else best)
    none

/-- Fire the timers due by `t`, one after the other, each at its own time.  A firing
removes its timer and schedules none, so `fuel = pending.length` firings suffice. -/
def runDue {α : Type} (t : Nat) : Nat → State α → State α
  | 0, s => s
  | fuel + 1, s =>
    match nextDue t s.pending with
    | none => s
    | some p =>
      runDue t fuel
        (later p.args
          { s with now := p.due, pending := s.pending.filter (fun x => !decide (x.id = p.id)) })

/-- Let time run up to `t`. -/
def advanceTo {α : Type} (t : Nat) (s : State α) : State α :=
  { runDue t s.pending.length s with now := t }

/-- The wrapped function is called at the given times with the given arguments. -/
def runCalls {α : Type} (wait : Nat) : List (Nat × α) → State α → State α
  | [], s => s
  | (t, args) :: rest, s => runCalls wait rest (executedFunction wait args (advanceTo t s))

/-- Each call comes no earlier than the one before it and less than `wait` after it. -/
def Rapid {α : Type} (wait : Nat) : List (Nat × α) → Prop
  | [] => True
  | [_] => True
  | a :: b :: rest => a.1 ≤ b.1 ∧ b.1 < a.1 + wait ∧ Rapid wait (b :: rest)

end Debounce

namespace Highlight

/-! ## `animateHighlight`

Pixel measurements are values of a number type `R` of which only subtraction is used.
The layout (`range.getClientRects()`, `span.getBoundingClientRect()`) is an input kept
with each span; a resize changes it.  Highlight spans are taken not to be nested in one
another, so the layers found by `span.querySelectorAll('.highlight-layer')` are the
span's own.  The `requestAnimationFrame` callbacks are queued per span in the order
they were requested: a callback touches only the marker it captured. -/

/-- A `DOMRect`. -/
structure Rect (R : Type) where
  top : R
  left : R
  width : R
  height : R
  deriving DecidableEq, Repr

/-- A `div.highlight-layer`: the identity of the element object and its inline style;
`width = none` when no inline width has been assigned. -/
structure Layer (R : Type) where
  id : Nat
  top : R
  left : R
  height : R
  width : Option R
  transitionDelay : Nat
  deriving DecidableEq, Repr

/-- A `.highlight` span: its overlay layers in document order, its layout (the client
rectangles of its contents and its bounding rectangle as measured during the `i`-th
turn of the loop), the number of markers created in it so far (the identity of the next
one) and its pending animation-frame callbacks (marker and width to assign). -/
structure Span (R : Type) where
  layers : List (Layer R)
  rects : List (Rect R)
  bounding : Nat → Rect R
  created : Nat
  frameCallbacks : List (Nat × R)

/-- Modelled from the spec: the stylesheet rule for `.highlight-layer` is not among the
sources; the spec gives a fresh layer "zero initial width", which is the width a layer
shows while it has no inline width. -/
def stylesheetWidth {R : Type} [Zero R] : R := 0

/-- The width a layer shows: the inline width if set, else the stylesheet's. -/
def Layer.shownWidth {R : Type} [Zero R] (l : Layer R) : R :=
  l.width.getD stylesheetWidth

/-- The `rects.forEach` of lines 15-34, from turn `index` on over the remaining
rectangles. -/
def forEachRect {R : Type} [Sub R] (sp : Span R) : Nat → List (Rect R) → Span R
  | _, [] => sp
  | index, rect :: rest =>
    let containerRect := sp.bounding index
    let marker : Layer R :=
      { id := sp.created
        top := rect.top - containerRect.top
        left := rect.left - containerRect.left
        height := rect.height
        width := none
        transitionDelay := index * 600 }
    forEachRect
      { sp with
        layers := sp.layers ++ [marker]
        created := sp.created + 1
        frameCallbacks := sp.frameCallbacks ++ [(marker.id, rect.width)] }
      (index + 1) rest

/-- The body of `highlights.forEach`, lines 7-34, for one span. -/
def animateSpan {R : Type} [Sub R] (sp : Span R) : Span R :=
  forEachRect { sp with layers := [] } 0 sp.rects

/-- `animateHighlight()`, lines 3-36, on the `.highlight` spans of the document. -/
def animateHighlight {R : Type} [Sub R] (spans : List (Span R)) : List (Span R) :=
  spans.map animateSpan

/-- An animation-frame callback, lines 31-33: `marker.style.width = ...` on the marker
it captured. -/
def setWidth {R : Type} (cb : Nat × R) (l : Layer R) : Layer R :=
  if l.id = cb.1 then { l with width := some cb.2 } else l

/-- The next animation frame for one span: its callbacks run in order. -/
def frameSpan {R : Type} (sp : Span R) : Span R :=
  { sp with
    layers := sp.frameCallbacks.foldl (fun layers cb => layers.map (setWidth cb)) sp.layers
    frameCallbacks := [] }

/-- The next animation frame. -/
def animationFrame {R : Type} (spans : List (Span R)) : List (Span R) :=
  spans.map frameSpan

/-- Position, height and delay of a layer. -/
def Layer.geometry {R : Type} (l : Layer R) : R × R × R × Nat :=
  (l.top, l.left, l.height, l.transitionDelay)

/-- The markers the loop creates for `rects` from turn `index` on, the first one being
marker number `firstId`. -/
def markers {R : Type} [Sub R] (bounding : Nat → Rect R) :
    Nat → Nat → List (Rect R) → List (Layer R)
  | _, _, [] => []
  | firstId, index, rect :: rest =>
    { id := firstId
      top := rect.top - (bounding index).top
      left := rect.left - (bounding index).left
      height := rect.height
      width := none
      transitionDelay := index * 600 } :: markers bounding (firstId + 1) (index + 1) rest

/-- The callbacks the loop requests for `rects`. -/
def requested {R : Type} : Nat → List (Rect R) → List (Nat × R)
  | _, [] => []
  | firstId, rect :: rest => (firstId, rect.width) :: requested (firstId + 1) rest

/-- A span whose text wraps over two lines, with a stale layer and a stale callback. -/
def sampleSpan : Span Int :=
  { layers := [{ id := 0, top := 0, left := 0, height := 18, width := some 90,
                 transitionDelay := 0 }]
    rects := [{ top := 110, left := 60, width := 200, height := 18 },
              { top := 128, left := 20, width := 75, height := 18 }]
    bounding := fun _ => { top := 100, left := 20, width := 240, height := 36 }
    created := 1
    frameCallbacks := [(0, 90)] }

end Highlight

namespace Flipbook

theorem item_of_lt (pages : List PageEl) (i : Int) (h0 : 0 ≤ i) (h1 : i < pages.length) :
    ∃ p, item pages i = some p := by
  have h2 : i.toNat < pages.length := by omega
  exact ⟨pages[i.toNat], by simp [item, h0, List.getElem?_eq_getElem h2]⟩

theorem goNextPage_moves (s : State) (h : Inv s) (hlt : s.currentLocation < s.maxLocation) :
    ∃ s1, goNextPage s = .ok s1 ∧ s1.currentLocation = s.currentLocation + 1 ∧
      s1.numOfPages = s.numOfPages ∧ s1.maxLocation = s.maxLocation ∧
      s1.timers = s.timers ∧
      s1.book.pages = s.book.pages.modify
        (fun p => { p with flipped := true, zIndex := some s.currentLocation })
        (s.currentLocation - 1).toNat ∧
      ButtonsOk s1 := by
  obtain ⟨p, hp⟩ := item_of_lt s.book.pages (s.currentLocation - 1)
    (by have := h.lo; omega) (by have := h.max; have := h.num; omega)
  by_cases h1 : s.currentLocation = 1 <;> by_cases h2 : s.currentLocation = s.numOfPages <;>
    simp [goNextPage, hlt, h1, h2, openBook, closeBook, updateButtons, modifyPage, hp, ButtonsOk] <;>
    simp_all [openBook, closeBook, updateButtons, modifyPage]

theorem goPrevPage_moves (s : State) (h : Inv s) (hgt : 1 < s.currentLocation) :
    ∃ s1, goPrevPage s = .ok s1 ∧ s1.currentLocation = s.currentLocation - 1 ∧
      s1.numOfPages = s.numOfPages ∧ s1.maxLocation = s.maxLocation ∧
      s1.timers = s.timers ++
        [Timer.mk 300 (s.currentLocation - 2).toNat (s.numOfPages - (s.currentLocation - 2))] ∧
      s1.book.pages = s.book.pages.modify (fun p => { p with flipped := false })
        (s.currentLocation - 2).toNat ∧
      ButtonsOk s1 := by
  obtain ⟨p, hp⟩ := item_of_lt s.book.pages (s.currentLocation - 2)
    (by omega) (by have := h.max; have := h.num; have := h.hi; omega)
  have hgt2 : s.currentLocation > 1 := hgt
  by_cases h1 : s.currentLocation = 2 <;> by_cases h2 : s.currentLocation = s.maxLocation <;>
    simp [goPrevPage, hgt2, h1, h2, openBook, closeBook, updateButtons, modifyPage, hp, ButtonsOk] <;>
    simp_all [openBook, closeBook, updateButtons, modifyPage]

theorem goNextPage_stays (s : State) (hge : ¬ s.currentLocation < s.maxLocation) :
    goNextPage s = .ok s := by
  simp [goNextPage, hge]

theorem goPrevPage_stays (s : State) (hle : ¬ 1 < s.currentLocation) :
    goPrevPage s = .ok s := by
  have : ¬ s.currentLocation > 1 := hle
  simp [goPrevPage, this]

theorem foldl_fire_fields (ts : List Timer) (s : State) :
    (ts.foldl fire s).currentLocation = s.currentLocation ∧
    (ts.foldl fire s).numOfPages = s.numOfPages ∧
    (ts.foldl fire s).maxLocation = s.maxLocation ∧
    (ts.foldl fire s).prevBtn = s.prevBtn ∧
    (ts.foldl fire s).nextBtn = s.nextBtn ∧
    (ts.foldl fire s).book.pages.length = s.book.pages.length ∧
    (∀ i : Nat, ((ts.foldl fire s).book.pages[i]?).map PageEl.flipped =
      (s.book.pages[i]?).map PageEl.flipped) := by
  induction ts generalizing s with
  | nil => simp
  | cons t ts ih =>
    obtain ⟨a, b, c, d, e, f, g⟩ := ih (fire s t)
    simp only [List.foldl_cons]
    refine ⟨a, b, c, d, e, ?_, ?_⟩
    · rw [f]; simp [fire, modifyPage]
    · intro i
      rw [g i]
      simp only [fire, modifyPage, List.getElem?_modify]
      by_cases hi : t.page = i <;> simp [hi]
      cases s.book.pages[i]? <;> simp

theorem advance_inv (ms : Nat) (s : State) (h : Inv s) :
    Inv (advance ms s) ∧ (ButtonsOk s → ButtonsOk (advance ms s)) ∧
      (advance ms s).book.pages.length = s.book.pages.length ∧
      (advance ms s).currentLocation = s.currentLocation := by
  obtain ⟨a, b, c, d, e, f, -⟩ :=
    foldl_fire_fields (s.timers.filter (fun t => decide (t.remaining ≤ ms))) s
  refine ⟨⟨?_, ?_, ?_, ?_, ?_⟩, ?_, ?_, ?_⟩
  · simp only [advance]; rw [b, f]; exact h.num
  · simp only [advance]; rw [b, c]; exact h.max
  · simp only [advance]; rw [a]; exact h.lo
  · simp only [advance]; rw [a, c]; exact h.hi
  · intro t ht
    simp only [advance, List.mem_map, List.mem_filter] at ht
    obtain ⟨t0, ⟨ht0, -⟩, rfl⟩ := ht
    simp only [advance]
    rw [b, f]
    exact h.timers t0 ht0
  · intro hb
    simp only [advance, ButtonsOk]
    rw [a, c, d, e]
    exact hb
  · simp only [advance]; exact f
  · simp only [advance]; exact a

theorem step_inv (s : State) (op : Op) (h : Inv s) :
    ∃ s1, step s op = .ok s1 ∧ Inv s1 ∧ (ButtonsOk s → ButtonsOk s1) ∧
      s1.book.pages.length = s.book.pages.length := by
  have next_case : ∃ s1, goNextPage s = .ok s1 ∧ Inv s1 ∧ (ButtonsOk s → ButtonsOk s1) ∧
      s1.book.pages.length = s.book.pages.length := by
    by_cases hlt : s.currentLocation < s.maxLocation
    · obtain ⟨s1, e, hloc, hnum, hmax, htim, hpages, hb⟩ := goNextPage_moves s h hlt
      refine ⟨s1, e, ⟨?_, ?_, ?_, ?_, ?_⟩, fun _ => hb, ?_⟩
      · rw [hnum, hpages, List.length_modify]; exact h.num
      · rw [hmax, hnum]; exact h.max
      · have := h.lo; omega
      · omega
      · intro t ht
        rw [htim] at ht
        rw [hnum, hpages, List.length_modify]
        exact h.timers t ht
      · rw [hpages, List.length_modify]
    · exact ⟨s, goNextPage_stays s hlt, h, id, rfl⟩
  have prev_case : ∃ s1, goPrevPage s = .ok s1 ∧ Inv s1 ∧ (ButtonsOk s → ButtonsOk s1) ∧
      s1.book.pages.length = s.book.pages.length := by
    by_cases hgt : 1 < s.currentLocation
    · obtain ⟨s1, e, hloc, hnum, hmax, htim, hpages, hb⟩ := goPrevPage_moves s h hgt
      refine ⟨s1, e, ⟨?_, ?_, ?_, ?_, ?_⟩, fun _ => hb, ?_⟩
      · rw [hnum, hpages, List.length_modify]; exact h.num
      · rw [hmax, hnum]; exact h.max
      · omega
      · have := h.hi; omega
      · intro t ht
        rw [htim, List.mem_append, List.mem_singleton] at ht
        rw [hnum, hpages, List.length_modify]
        rcases ht with ht | rfl
        · exact h.timers t ht
        · have := h.hi; have := h.max; have := h.num
          refine ⟨by simp only; omega, ?_⟩
          simp only
          omega
      · rw [hpages, List.length_modify]
    · exact ⟨s, goPrevPage_stays s hgt, h, id, rfl⟩
  cases op with
  | next => exact next_case
  | prev => exact prev_case
  | click clientX left width =>
    simp only [step, pageClick]
    split
    · exact prev_case
    · exact next_case
  | wait ms =>
    obtain ⟨a, b, c, -⟩ := advance_inv ms s h
    exact ⟨advance ms s, rfl, a, b, c⟩

theorem run_inv (ops : List Op) (s : State) (h : Inv s) :
    ∃ s1, run ops s = .ok s1 ∧ Inv s1 ∧ (ButtonsOk s → ButtonsOk s1) ∧
      s1.book.pages.length = s.book.pages.length := by
  induction ops generalizing s with
  | nil => exact ⟨s, rfl, h, id, rfl⟩
  | cons op ops ih =>
    obtain ⟨s1, e1, h1, b1, l1⟩ := step_inv s op h
    obtain ⟨s2, e2, h2, b2, l2⟩ := ih s1 h1
    exact ⟨s2, by simp [run, e1, e2], h2, fun hb => b2 (b1 hb), by rw [l2, l1]⟩

theorem length_setupPages (inst : Nat) (n : Int) (k : Nat) (pages : List PageEl) :
    (setupPages inst n k pages).length = pages.length := by
  induction pages generalizing k with
  | nil => rfl
  | cons p ps ih => simp [setupPages, ih]

theorem init_state (doc : Document) (s : State)
    (h : (initializeFlipbook doc).state? = some s) :
    Inv s ∧ s.currentLocation = 1 ∧ s.timers = [] ∧ 1 ≤ s.numOfPages ∧
      ∃ book, doc.book = some book ∧ s.book.pages.length = book.pages.length ∧
        s.book.pages = setupPages s.inst s.numOfPages 0 book.pages := by
  unfold initializeFlipbook at h
  split at h
  · simp [InitResult.state?] at h
  · split at h
    · simp [InitResult.state?] at h
    · rename_i book hbook
      split at h
      · split at h
        · simp [InitResult.state?] at h
        · rename_i hlen
          have hpos : 0 < book.pages.length := Nat.pos_of_ne_zero hlen
          split at h <;> simp only [InitResult.state?, Option.some.injEq] at h <;> subst h <;>
            refine ⟨⟨?_, ?_, ?_, ?_, ?_⟩, ?_, ?_, ?_, book, hbook, ?_, ?_⟩ <;>
            simp [updateButtons, length_setupPages] <;> omega
      · simp [InitResult.state?] at h

theorem run_next_replicate (k : Nat) (s : State) (h : Inv s) (hf : FlippedBelow s) :
    ∃ s1, run (List.replicate k Op.next) s = .ok s1 ∧ Inv s1 ∧ FlippedBelow s1 ∧
      s1.currentLocation = min (s.currentLocation + k) s.maxLocation ∧
      s1.maxLocation = s.maxLocation ∧
      s1.book.pages.length = s.book.pages.length ∧
      ((s.currentLocation < s.maxLocation ∧ 0 < k ∨ ButtonsOk s) → ButtonsOk s1) := by
  induction k generalizing s with
  | zero =>
    refine ⟨s, rfl, h, hf, ?_, rfl, rfl, ?_⟩
    · have := h.hi; simp; omega
    · rintro (⟨-, h0⟩ | hb)
      · exact absurd h0 (lt_irrefl 0)
      · exact hb
  | succ k ih =>
    by_cases hlt : s.currentLocation < s.maxLocation
    · obtain ⟨s1, e, hloc, hnum, hmax, htim, hpages, hb⟩ := goNextPage_moves s h hlt
      obtain ⟨s1b, e1b, h1, -, l1⟩ := step_inv s Op.next h
      have hs : s1b = s1 := by
        have : (Except.ok s1b : Except String State) = .ok s1 := by rw [← e1b, ← e]; rfl
        exact Except.ok.inj this
      subst hs
      have hf1 : FlippedBelow s1b := by
        intro i hi
        rw [hpages, List.getElem?_modify]
        by_cases hi2 : (s.currentLocation - 1).toNat = i
        · have hlen : i < s.book.pages.length := by
            have := h.max; have := h.num; have := h.lo; omega
          simp only [if_pos hi2, List.getElem?_eq_getElem hlen]
          exact ⟨_, rfl, rfl⟩
        · have hi3 : (i : Int) < s.currentLocation - 1 := by
            have := h.lo; omega
          obtain ⟨p, hp, hpf⟩ := hf i hi3
          simp only [if_neg hi2, hp]
          exact ⟨p, rfl, hpf⟩
      obtain ⟨s2, e2, h2, hf2, hloc2, hmax2, hlen2, hb2⟩ := ih s1b h1 hf1
      refine ⟨s2, ?_, h2, hf2, ?_, ?_, ?_, fun _ => hb2 (Or.inr hb)⟩
      · simp only [List.replicate_succ, run, step, e, e2]
      · rw [hloc2, hloc, hmax]; push_cast; congr 1; omega
      · rw [hmax2, hmax]
      · rw [hlen2, l1]
    · have e := goNextPage_stays s hlt
      obtain ⟨s2, e2, h2, hf2, hloc2, hmax2, hlen2, hb2⟩ := ih s h hf
      refine ⟨s2, ?_, h2, hf2, ?_, hmax2, hlen2, ?_⟩
      · simp only [List.replicate_succ, run, step, e, e2]
      · rw [hloc2]
        have := h.hi
        rw [min_eq_right (by omega), min_eq_right (by push_cast; omega)]
      · rintro (⟨h0, -⟩ | hb)
        · exact absurd h0 hlt
        · exact hb2 (Or.inr hb)

theorem getElem?_setupPages (inst : Nat) (n : Int) (k : Nat) (pages : List PageEl) (i : Nat) :
    (setupPages inst n k pages)[i]? = (pages[i]?).map (fun page =>
      { page with
        zIndex := some (n - ((k + i : Nat) : Int))
        listeners := addEventListener page.listeners (.pageClick inst (k + i)) }) := by
  induction pages generalizing k i with
  | nil => simp [setupPages]
  | cons p ps ih =>
    cases i with
    | zero => simp [setupPages]
    | succ i =>
      simp only [setupPages, List.getElem?_cons_succ, ih]
      have : k + 1 + i = k + (i + 1) := by omega
      rw [this]

theorem foldl_fire_last (ts : List Timer) (t : Timer) (s : State)
    (ht : t.page < s.book.pages.length) :
    ∃ p, ((ts ++ [t]).foldl fire s).book.pages[t.page]? = some p ∧
      p.zIndex = some t.zIndex ∧
      ((s.book.pages[t.page]?).map PageEl.flipped) = some p.flipped := by
  obtain ⟨-, -, -, -, -, hlen, hfl⟩ := foldl_fire_fields ts s
  have ht2 : t.page < (ts.foldl fire s).book.pages.length := by rw [hlen]; exact ht
  rw [List.foldl_append]
  simp only [List.foldl_cons, List.foldl_nil, fire, modifyPage, List.getElem?_modify]
  rw [← hfl t.page]
  simp only [if_true, List.getElem?_eq_getElem ht2]
  exact ⟨_, rfl, rfl, rfl⟩

end Flipbook

namespace Flipbook

theorem init_sampleDocument : initializeFlipbook (sampleDocument 2) = .initialized sampleState := by
  rfl

/-- C1: on the flipbook set up by `initializeFlipbook` (which has at least one page),
every finite sequence of `goNextPage()` / `goPrevPage()` calls, page clicks and timer
delays runs without an exception and leaves `currentLocation` in `[1, maxLocation]`
with `maxLocation = numOfPages + 1`; hence `pages[currentLocation - 1]` exists whenever
`goNextPage` would use it and `pages[currentLocation - 2]` exists whenever `goPrevPage`
would use it. -/
theorem currentLocation_in_range (doc : Document) (s : State)
    (hinit : (initializeFlipbook doc).state? = some s) (ops : List Op) :
    ∃ s1, run ops s = .ok s1 ∧
      doc.book.map (fun b => b.pages.length) = some s1.book.pages.length ∧
      s1.numOfPages = s1.book.pages.length ∧ 1 ≤ s1.numOfPages ∧
      s1.maxLocation = s1.numOfPages + 1 ∧
      1 ≤ s1.currentLocation ∧ s1.currentLocation ≤ s1.maxLocation ∧
      (s1.currentLocation < s1.maxLocation →
        (item s1.book.pages (s1.currentLocation - 1)).isSome = true) ∧
      (1 < s1.currentLocation →
        (item s1.book.pages (s1.currentLocation - 2)).isSome = true) := by
  obtain ⟨hinv, -, -, hn, book, hbook, hlen, -⟩ := init_state doc s hinit
  obtain ⟨s1, e, h1, -, l1⟩ := run_inv ops s hinv
  have hnum1 := h1.num
  have hnum := hinv.num
  have hmax1 := h1.max
  have hlo := h1.lo
  have hhi := h1.hi
  refine ⟨s1, e, ?_, hnum1, by omega, hmax1, hlo, hhi, ?_, ?_⟩
  · rw [hbook, l1, hlen]; rfl
  · intro hlt
    obtain ⟨p, hp⟩ := item_of_lt s1.book.pages (s1.currentLocation - 1) (by omega) (by omega)
    rw [hp]; rfl
  · intro hgt
    obtain ⟨p, hp⟩ := item_of_lt s1.book.pages (s1.currentLocation - 2) (by omega) (by omega)
    rw [hp]; rfl

theorem currentLocation_in_range_witness :
    (initializeFlipbook (sampleDocument 2)).state? = some sampleState ∧
    ∃ s1, run [Op.next, Op.click 10 0 100, Op.prev, Op.wait 300, Op.next] sampleState = .ok s1 ∧
      (sampleDocument 2).book.map (fun b => b.pages.length) = some s1.book.pages.length ∧
      s1.numOfPages = s1.book.pages.length ∧ 1 ≤ s1.numOfPages ∧
      s1.maxLocation = s1.numOfPages + 1 ∧
      1 ≤ s1.currentLocation ∧ s1.currentLocation ≤ s1.maxLocation ∧
      (s1.currentLocation < s1.maxLocation →
        (item s1.book.pages (s1.currentLocation - 1)).isSome = true) ∧
      (1 < s1.currentLocation →
        (item s1.book.pages (s1.currentLocation - 2)).isSome = true) :=
  ⟨rfl, currentLocation_in_range (sampleDocument 2) sampleState rfl _⟩

/-- C4: in the state left by an `initializeFlipbook` call that ran to its end, and after
every later sequence of `goNextPage()` / `goPrevPage()` calls (moving or not; page clicks
and timer delays included), the previous button is disabled iff `currentLocation == 1`
and the next button is disabled iff `currentLocation == maxLocation`. -/
theorem buttons_reflect_location (doc : Document) (s : State)
    (hinit : initializeFlipbook doc = .initialized s) (ops : List Op) :
    ∃ s1, run ops s = .ok s1 ∧
      (s1.prevBtn.disabled = true ↔ s1.currentLocation = 1) ∧
      (s1.nextBtn.disabled = true ↔ s1.currentLocation = s1.maxLocation) := by
  have hst : (initializeFlipbook doc).state? = some s := by rw [hinit]; rfl
  obtain ⟨hinv, -⟩ := init_state doc s hst
  have hb : ButtonsOk s := by
    unfold initializeFlipbook at hinit
    split at hinit
    · cases hinit
    · split at hinit
      · cases hinit
      · split at hinit
        · split at hinit
          · cases hinit
          · split at hinit
            · cases hinit
            · simp only [InitResult.initialized.injEq] at hinit
              subst hinit
              simp [ButtonsOk, updateButtons]
        · cases hinit
  obtain ⟨s1, e, -, b1, -⟩ := run_inv ops s hinv
  exact ⟨s1, e, b1 hb⟩

theorem buttons_reflect_location_witness :
    initializeFlipbook (sampleDocument 2) = .initialized sampleState ∧
    ∃ s1, run [Op.next, Op.next, Op.next, Op.prev] sampleState = .ok s1 ∧
      (s1.prevBtn.disabled = true ↔ s1.currentLocation = 1) ∧
      (s1.nextBtn.disabled = true ↔ s1.currentLocation = s1.maxLocation) :=
  ⟨rfl, buttons_reflect_location (sampleDocument 2) sampleState rfl _⟩

/-- C3: from the state `initializeFlipbook` sets up (location 1, `n = numOfPages >= 1`
pages), `k >= n` calls of `goNextPage()` run without an exception and leave
`currentLocation = maxLocation = n + 1`, every page flipped and the next button
disabled; one more `goNextPage()` call returns the very same state (location, pages,
transforms, buttons and timers all unchanged). -/
theorem next_saturates (doc : Document) (s : State)
    (hinit : (initializeFlipbook doc).state? = some s) (k : Nat) (hk : s.numOfPages ≤ k) :
    s.currentLocation = 1 ∧ 1 ≤ s.numOfPages ∧
    doc.book.map (fun b => (b.pages.length : Int)) = some s.numOfPages ∧
    ∃ s1, run (List.replicate k Op.next) s = .ok s1 ∧
      s1.currentLocation = s.numOfPages + 1 ∧ s1.maxLocation = s.numOfPages + 1 ∧
      (∀ p ∈ s1.book.pages, p.flipped = true) ∧
      s1.nextBtn.disabled = true ∧
      goNextPage s1 = .ok s1 := by
  obtain ⟨hinv, hloc, -, hn, book, hbook, hlen, -⟩ := init_state doc s hinit
  have hnum := hinv.num
  have hmax := hinv.max
  have hf : FlippedBelow s := by
    intro i hi
    rw [hloc] at hi
    omega
  obtain ⟨s1, e, h1, hf1, hloc1, hmax1, hlen1, hb1⟩ := run_next_replicate k s hinv hf
  have hloc1b : s1.currentLocation = s.numOfPages + 1 := by
    rw [hloc1, hmax, hloc, min_eq_right (by omega)]
  refine ⟨hloc, hn, ?_, s1, e, hloc1b, by rw [hmax1, hmax], ?_, ?_, ?_⟩
  · rw [hbook, hnum, hlen]; rfl
  · intro p hp
    obtain ⟨i, hi⟩ := List.mem_iff_getElem?.mp hp
    have hil : i < s1.book.pages.length := by
      by_contra hcon
      rw [List.getElem?_eq_none (by omega)] at hi
      cases hi
    obtain ⟨q, hq, hqf⟩ := hf1 i (by rw [hloc1b, hnum, ← hlen1]; omega)
    rw [hi] at hq
    cases hq
    exact hqf
  · have hb := hb1 (Or.inl ⟨by rw [hloc, hmax]; omega, by omega⟩)
    exact hb.2.mpr (by rw [hloc1b, hmax1, hmax])
  · exact goNextPage_stays s1 (by rw [hloc1b, hmax1, hmax]; omega)

theorem next_saturates_witness :
    (initializeFlipbook (sampleDocument 2)).state? = some sampleState ∧
    sampleState.numOfPages ≤ (3 : Nat) ∧
    sampleState.currentLocation = 1 ∧ 1 ≤ sampleState.numOfPages ∧
    (sampleDocument 2).book.map (fun b => (b.pages.length : Int)) =
      some sampleState.numOfPages ∧
    ∃ s1, run (List.replicate 3 Op.next) sampleState = .ok s1 ∧
      s1.currentLocation = sampleState.numOfPages + 1 ∧
      s1.maxLocation = sampleState.numOfPages + 1 ∧
      (∀ p ∈ s1.book.pages, p.flipped = true) ∧
      s1.nextBtn.disabled = true ∧
      goNextPage s1 = .ok s1 :=
  ⟨rfl, by decide, next_saturates (sampleDocument 2) sampleState rfl 3 (by decide)⟩

/-- C2, as stated, fails at the last location: on the two-page flipbook at
`currentLocation = maxLocation = 3` (reached by two `goNextPage()` calls), `goNextPage()`
does nothing and the following `goPrevPage()` moves the location to 2. -/
theorem next_prev_at_maxLocation :
    initializeFlipbook (sampleDocument 2) = .initialized sampleState ∧
    (run [Op.next, Op.next] sampleState).map (fun s => (s.currentLocation, s.maxLocation)) =
      .ok (3, 3) ∧
    (run [Op.next, Op.next, Op.next, Op.prev] sampleState).map (fun s => s.currentLocation) =
      .ok 2 :=
  ⟨rfl, rfl, rfl⟩

/-- C2, amended: in every state reachable from the one `initializeFlipbook` sets up
in which `currentLocation < maxLocation`, `goNextPage()` followed by `goPrevPage()`
returns `currentLocation` to its value, leaves the affected page (position
`currentLocation - 1`) not flipped, and once 300 ms or more have passed that page is
still not flipped and its z-index is `numOfPages - index`, the value it was given at
initialization. -/
theorem next_then_prev_restores (doc : Document) (s : State)
    (hinit : (initializeFlipbook doc).state? = some s) (ops : List Op) (s0 : State)
    (hreach : run ops s = .ok s0) (hlt : s0.currentLocation < s0.maxLocation)
    (ms : Nat) (hms : 300 ≤ ms) :
    ∃ s1 s2, goNextPage s0 = .ok s1 ∧ goPrevPage s1 = .ok s2 ∧
      s2.currentLocation = s0.currentLocation ∧
      ∃ p0 p2 p, s.book.pages[(s0.currentLocation - 1).toNat]? = some p0 ∧
        s2.book.pages[(s0.currentLocation - 1).toNat]? = some p2 ∧
        (advance ms s2).book.pages[(s0.currentLocation - 1).toNat]? = some p ∧
        p2.flipped = false ∧ p.flipped = false ∧
        p.zIndex = some (s0.numOfPages - (s0.currentLocation - 1)) ∧
        p.zIndex = p0.zIndex := by
  obtain ⟨hinv, -, -, hn, book, hbook, hlen, hpages⟩ := init_state doc s hinit
  obtain ⟨s0b, e0, h0, -, l0⟩ := run_inv ops s hinv
  have hs0 : s0b = s0 := Except.ok.inj (by rw [← e0, ← hreach])
  subst hs0
  obtain ⟨s1, e1, hloc1, hnum1, hmax1, htim1, hpages1, -⟩ := goNextPage_moves s0b h0 hlt
  obtain ⟨s1b, e1b, h1, -, l1⟩ := step_inv s0b Op.next h0
  have hs1 : s1b = s1 := Except.ok.inj (by rw [← e1b, ← e1]; rfl)
  subst hs1
  have hlo := h0.lo
  have hnum0 := h0.num
  have hmax0 := h0.max
  obtain ⟨s2, e2, hloc2, hnum2, hmax2, htim2, hpages2, -⟩ :=
    goPrevPage_moves s1b h1 (by omega)
  have hidx : (s1b.currentLocation - 2).toNat = (s0b.currentLocation - 1).toNat := by
    rw [hloc1]; congr 1; omega
  rw [hidx] at htim2 hpages2
  have hlt0 : (s0b.currentLocation - 1).toNat < s0b.book.pages.length := by omega
  have hlt1 : (s0b.currentLocation - 1).toNat < s1b.book.pages.length := by rw [l1]; exact hlt0
  have hlt2 : (s0b.currentLocation - 1).toNat < s2.book.pages.length := by
    rw [hpages2, List.length_modify]; exact hlt1
  have hltS : (s0b.currentLocation - 1).toNat < book.pages.length := by
    rw [← hlen, ← l0]; exact hlt0
  have hp2 : ∃ p2, s2.book.pages[(s0b.currentLocation - 1).toNat]? = some p2 ∧
      p2.flipped = false := by
    rw [hpages2, List.getElem?_modify]
    simp only [if_true, List.getElem?_eq_getElem hlt1]
    exact ⟨_, rfl, rfl⟩
  obtain ⟨p2, hp2, hp2f⟩ := hp2
  have hdue : (s2.timers.filter (fun t => decide (t.remaining ≤ ms))) =
      (s1b.timers.filter (fun t => decide (t.remaining ≤ ms))) ++
        [Timer.mk 300 (s0b.currentLocation - 1).toNat
          (s1b.numOfPages - (s1b.currentLocation - 2))] := by
    rw [htim2, List.filter_append]
    congr 1
    simp [List.filter, hms]
  obtain ⟨p, hp, hpz, hpf⟩ := foldl_fire_last
    (s1b.timers.filter (fun t => decide (t.remaining ≤ ms)))
    (Timer.mk 300 (s0b.currentLocation - 1).toNat (s1b.numOfPages - (s1b.currentLocation - 2)))
    s2 hlt2
  simp only at hp hpz hpf
  rw [hp2] at hpf
  have hp0 : s.book.pages[(s0b.currentLocation - 1).toNat]? =
      some { book.pages[(s0b.currentLocation - 1).toNat] with
        zIndex := some (s.numOfPages - (((0 + (s0b.currentLocation - 1).toNat : Nat)) : Int))
        listeners := addEventListener book.pages[(s0b.currentLocation - 1).toNat].listeners
          (.pageClick s.inst (0 + (s0b.currentLocation - 1).toNat)) } := by
    rw [hpages, getElem?_setupPages, List.getElem?_eq_getElem hltS]
    rfl
  have hnumS : s0b.numOfPages = s.numOfPages := by
    rw [hnum0, l0]; exact hinv.num.symm
  refine ⟨s1b, s2, e1, e2, by rw [hloc2, hloc1]; omega, _, p2, p, hp0, hp2, ?_, hp2f, ?_, ?_, ?_⟩
  · simp only [advance]
    rw [hdue]
    exact hp
  · simp only [Option.map_some', Option.some.injEq] at hpf
    rw [← hpf]; exact hp2f
  · rw [hpz, hnum1, hloc1]; congr 1; omega
  · rw [hpz, hnum1, hloc1, hnumS]
    simp only [Option.some.injEq]
    push_cast
    omega

theorem next_then_prev_restores_witness :
    (initializeFlipbook (sampleDocument 2)).state? = some sampleState ∧
    run [] sampleState = .ok sampleState ∧
    sampleState.currentLocation < sampleState.maxLocation ∧ 300 ≤ 300 ∧
    ∃ s1 s2, goNextPage sampleState = .ok s1 ∧ goPrevPage s1 = .ok s2 ∧
      s2.currentLocation = sampleState.currentLocation ∧
      ∃ p0 p2 p, sampleState.book.pages[(sampleState.currentLocation - 1).toNat]? = some p0 ∧
        s2.book.pages[(sampleState.currentLocation - 1).toNat]? = some p2 ∧
        (advance 300 s2).book.pages[(sampleState.currentLocation - 1).toNat]? = some p ∧
        p2.flipped = false ∧ p.flipped = false ∧
        p.zIndex = some (sampleState.numOfPages - (sampleState.currentLocation - 1)) ∧
        p.zIndex = p0.zIndex :=
  ⟨rfl, rfl, by decide, by decide,
    next_then_prev_restores (sampleDocument 2) sampleState rfl [] sampleState rfl
      (by decide) 300 (by decide)⟩

/-- The guard of lines 74-77 on a document that has the container and the book: when
a button is missing or the book has no page, the call logs the diagnostic and returns,
leaving every element as it was. -/
theorem init_aborts_when_guard_fails (doc : Document) (container : Container) (book : Book)
    (hc : doc.flipbookContainer = some container) (hb : doc.book = some book)
    (hmiss : doc.prevBtn = none ∨ doc.nextBtn = none ∨ doc.fullscreenBtn = none ∨
      book.pages = []) :
    initializeFlipbook doc =
      .aborted { doc with console := doc.console ++ [initFailedMessage] } := by
  unfold initializeFlipbook
  simp only [hc, hb]
  rcases hmiss with h | h | h | h
  · simp only [h]
  · rw [h]; cases doc.prevBtn <;> rfl
  · rw [h]; cases doc.prevBtn <;> cases doc.nextBtn <;> rfl
  · cases doc.prevBtn <;> cases doc.nextBtn <;> cases doc.fullscreenBtn <;> simp [h]

/-- C5 fails on the code when the missing element is the book container: with the
flipbook container, both navigation buttons and the fullscreen button present but no
`#book`, line 71 dereferences `null` and the `TypeError` propagates; no diagnostic is
logged. -/
theorem init_without_book_throws :
    initializeFlipbook { sampleDocument 2 with book := none } =
      .typeError { sampleDocument 2 with book := none } ∧
    (initializeFlipbook { sampleDocument 2 with book := none }).threw = true ∧
    ((initializeFlipbook { sampleDocument 2 with book := none }).document
      { sampleDocument 2 with book := none }).console = [] :=
  ⟨rfl, rfl, rfl⟩

/-- C10 fails on the code: a second `initializeFlipbook` call on the document the first
one left gives the page two click listeners (one closure of each call) and the container
two, while each button keeps a single `onclick` handler. -/
theorem second_init_duplicates_listeners :
    (initializeFlipbook (sampleDocument 1)).state?.map
        (fun s => (s.book.pages.map PageEl.listeners, s.flipbookContainer.listeners))
      = some ([[.pageClick 0 0]], [.closeFullscreen 0]) ∧
    (initializeFlipbook
        ((initializeFlipbook (sampleDocument 1)).document (sampleDocument 1))).state?.map
        (fun s => (s.book.pages.map PageEl.listeners, s.flipbookContainer.listeners,
          s.prevBtn.onclick, s.nextBtn.onclick, s.fullscreenBtn.onclick))
      = some ([[.pageClick 0 0, .pageClick 1 0]], [.closeFullscreen 0, .closeFullscreen 1],
          some (.goPrevPage 1), some (.goNextPage 1), some (.toggleFullscreen 1)) ∧
    (initializeFlipbook
        ((initializeFlipbook (sampleDocument 1)).document (sampleDocument 1))).threw = false :=
  ⟨rfl, rfl, rfl⟩

end Flipbook

namespace Fullscreen

theorem following_append (n : Nat) (l1 rest : List Nat) (h : n ∉ l1) :
    following n (l1 ++ n :: rest) = rest.head? := by
  induction l1 with
  | nil => simp [following]
  | cons x l1 ih =>
    have hx : x ≠ n := fun e => h (by simp [e])
    have hn : n ∉ l1 := fun e => h (by simp [e])
    simp [following, hx, ih hn]

theorem insertBeforeIn_append (x r : Nat) (l1 rest : List Nat) (h : r ∉ l1) :
    insertBeforeIn x r (l1 ++ r :: rest) = l1 ++ x :: r :: rest := by
  induction l1 with
  | nil => simp [insertBeforeIn]
  | cons y l1 ih =>
    have hy : y ≠ r := fun e => h (by simp [e])
    have hn : r ∉ l1 := fun e => h (by simp [e])
    simp [insertBeforeIn, hy, ih hn]

theorem erase_middle (c : Nat) (l1 l2 : List Nat) (h : c ∉ l1) :
    (l1 ++ c :: l2).erase c = l1 ++ l2 := by
  rw [List.erase_append_right _ h, List.erase_cons_head]

theorem isInclusiveAncestor_congr (d d1 : Dom) (a : Nat)
    (h : ∀ n, n ≠ a → d1.parent n = d.parent n) (fuel n : Nat) :
    d1.isInclusiveAncestor fuel a n = d.isInclusiveAncestor fuel a n := by
  induction fuel generalizing n with
  | zero => rfl
  | succ fuel ih =>
    by_cases han : a = n
    · simp [Dom.isInclusiveAncestor, han]
    · have hna : n ≠ a := fun e => han e.symm
      simp only [Dom.isInclusiveAncestor, h n hna]
      cases d.parent n with
      | none => rfl
      | some p => simp only [ih p]

theorem insertBefore_eq (d : Dom) (parent node : Nat) (child : Option Nat)
    (hanc : d.isInclusiveAncestor d.height node parent = false)
    (hchild : ∀ x, child = some x → d.parent x = some parent) :
    d.insertBefore parent node child = .ok
      { parent := Function.update (d.remove node).parent node (some parent)
        children := Function.update (d.remove node).children parent
          (match (if child = some node then d.nextSibling node else child) with
           | none => (d.remove node).children parent ++ [node]
           | some r => insertBeforeIn node r ((d.remove node).children parent))
        height := (d.remove node).height } := by
  have hcheck : child.any (fun x => decide (d.parent x ≠ some parent)) = false := by
    cases child with
    | none => rfl
    | some x => simp [hchild x rfl]
  simp only [Dom.insertBefore, hanc, hcheck]
  rfl

/-- The world after entering fullscreen. -/
theorem toggle_enter (w : World) (ph p0 q : Nat)
    (hfs : w.fullscreenMode = false) (h : WellPlaced w ph p0 q) :
    toggleFullscreen w = .ok
      { w with
        fullscreenMode := true
        dom :=
          { w.dom with
            parent := Function.update w.dom.parent w.flipbookContainer (some w.body)
            children :=
              Function.update
                (Function.update w.dom.children q ((w.dom.children q).erase w.flipbookContainer))
                w.body
                (Function.update w.dom.children q
                  ((w.dom.children q).erase w.flipbookContainer) w.body
                  ++ [w.flipbookContainer]) } } := by
  simp only [toggleFullscreen, hfs, Bool.not_false, if_true, Dom.appendChild, Dom.insertBefore,
    h.not_above_body, Dom.remove, h.parent_container, Function.update_idem]
  simp

/-- The world after leaving fullscreen again, `m1 ++ ph :: m2` being the child list of
the placeholder's parent without the container: the container is back in that list,
right behind the placeholder. -/
theorem toggle_exit (w : World) (ph p0 q : Nat) (m1 m2 : List Nat)
    (hfs : w.fullscreenMode = false) (h : WellPlaced w ph p0 q)
    (hM : Function.update w.dom.children q ((w.dom.children q).erase w.flipbookContainer) p0
      = m1 ++ ph :: m2) :
    toggleFullscreen
      { w with
        fullscreenMode := true
        dom :=
          { w.dom with
            parent := Function.update w.dom.parent w.flipbookContainer (some w.body)
            children :=
              Function.update
                (Function.update w.dom.children q ((w.dom.children q).erase w.flipbookContainer))
                w.body
                (Function.update w.dom.children q
                  ((w.dom.children q).erase w.flipbookContainer) w.body
                  ++ [w.flipbookContainer]) } } =
    .ok
      { w with
        dom :=
          { w.dom with
            parent := Function.update w.dom.parent w.flipbookContainer (some p0)
            children :=
              Function.update
                (Function.update w.dom.children q ((w.dom.children q).erase w.flipbookContainer))
                p0 (m1 ++ ph :: w.flipbookContainer :: m2) } } := by
  obtain ⟨dom, body, c, placeholder, fullscreenMode⟩ := w
  obtain ⟨parent, children, height⟩ := dom
  obtain ⟨hph, hpp, hpc, hpc_ne, hmem, hnd, hndq, huniq, hpoc, hab, hap⟩ := h
  simp only at hph hpp hpc hpc_ne hmem hnd hndq huniq hpoc hab hap hfs hM
  subst hfs hph
  generalize hK : Function.update children q ((children q).erase c) = K at hM
  -- the child lists without the container
  have hcK : ∀ x, c ∉ K x := by
    intro x
    rw [← hK]
    by_cases hx : x = q
    · rw [hx, Function.update_same]
      exact fun hm => (List.Nodup.mem_erase_iff hndq).mp hm |>.1 rfl
    · rw [Function.update_noteq hx]
      exact fun hm => hx (huniq x hm)
  have hsub : ∀ r, r ∈ K p0 → r ∈ children p0 := by
    intro r hr
    rw [← hK] at hr
    by_cases hx : p0 = q
    · rw [hx, Function.update_same] at hr
      rw [hx]
      exact List.mem_of_mem_erase hr
    · rw [Function.update_noteq hx] at hr
      exact hr
  have hndK : (K p0).Nodup := by
    rw [← hK]
    by_cases hx : p0 = q
    · rw [hx, Function.update_same]
      exact hndq.erase c
    · rw [Function.update_noteq hx]
      exact hnd
  rw [hM] at hndK
  have hp1 : ph ∉ m1 := fun hm => (List.nodup_append.mp hndK).2.2 hm (by simp)
  have hnd2 : (ph :: m2).Nodup := (List.nodup_append.mp hndK).2.1
  have hc1 : c ∉ m1 := fun hm => hcK p0 (by rw [hM]; simp [hm])
  have hc2 : c ∉ m2 := fun hm => hcK p0 (by rw [hM]; simp [hm])
  have hhead : ∀ r, m2.head? = some r → r ≠ c ∧ r ≠ ph ∧ r ∉ m1 ∧ parent r = some p0 := by
    intro r hr
    have hrl : r ∈ m2 := List.mem_of_mem_head? hr
    refine ⟨fun e => hc2 (e ▸ hrl), ?_, ?_, ?_⟩
    · intro e; rw [e] at hrl; simp [hrl] at hnd2
    · intro hm
      exact (List.nodup_append.mp hndK).2.2 hm (by simp [hrl])
    · exact hpoc r (hsub r (by rw [hM]; simp [hrl]))
  -- the tree in fullscreen
  generalize hd1 : ({ parent := Function.update parent c (some body)
                      children := Function.update K body (K body ++ [c])
                      height := height } : Dom) = d1
  have hd1p : d1.parent = Function.update parent c (some body) := by rw [← hd1]
  have hd1c : d1.children = Function.update K body (K body ++ [c]) := by rw [← hd1]
  have hd1h : d1.height = height := by rw [← hd1]
  have hpar1 : d1.parent ph = some p0 := by
    rw [hd1p, Function.update_noteq hpc_ne]; exact hpp
  have hparc : d1.parent c = some body := by rw [hd1p, Function.update_same]
  have hanc : d1.isInclusiveAncestor d1.height c p0 = false := by
    rw [hd1h, isInclusiveAncestor_congr { parent := parent, children := children, height := height }]
    · exact hap
    · intro n hn
      rw [hd1p]
      exact Function.update_noteq hn _ _
  have hrem : d1.remove c =
      { parent := Function.update parent c none, children := K, height := height } := by
    simp only [Dom.remove, hparc, hd1p, hd1c, hd1h, Function.update_same, Function.update_idem]
    congr 1
    rw [List.erase_append_right _ (hcK body), List.erase_cons_head, List.append_nil,
      Function.update_eq_self]
  -- the sibling following the placeholder in fullscreen
  have hsib : d1.nextSibling ph = if p0 = body then (m2 ++ [c]).head? else m2.head? := by
    simp only [Dom.nextSibling, hpar1, hd1c]
    by_cases hb : p0 = body
    · subst hb
      simp only [Function.update_same, if_true]
      rw [hM, List.append_assoc, List.cons_append, following_append _ _ _ hp1]
    · rw [Function.update_noteq hb, if_neg hb, hM, following_append _ _ _ hp1]
  have hsibc : d1.nextSibling ph = some c → d1.nextSibling c = none ∧ m2 = [] := by
    intro hx
    rw [hsib] at hx
    cases m2 with
    | nil =>
      refine ⟨?_, rfl⟩
      by_cases hb : p0 = body
      · subst hb
        simp only [Dom.nextSibling, hparc, hd1c, Function.update_same]
        have : K p0 ++ [c] = (m1 ++ [ph]) ++ c :: [] := by rw [hM]
        rw [this, following_append]
        · rfl
        · intro hm
          rcases List.mem_append.mp hm with hm | hm
          · exact hc1 hm
          · exact hpc_ne (List.mem_singleton.mp hm).symm
      · rw [if_neg hb] at hx
        cases hx
    | cons r t =>
      exfalso
      have hr := (hhead r rfl).1
      split at hx <;> simp at hx <;> exact hr hx
  have href : (if d1.nextSibling ph = some c then d1.nextSibling c else d1.nextSibling ph)
      = m2.head? := by
    by_cases hx : d1.nextSibling ph = some c
    · obtain ⟨h1, h2⟩ := hsibc hx
      rw [if_pos hx, h1, h2]; rfl
    · rw [if_neg hx, hsib]
      by_cases hb : p0 = body
      · rw [if_pos hb]
        cases m2 with
        | nil =>
          exfalso
          apply hx
          rw [hsib, if_pos hb]; rfl
        | cons r t => rfl
      · rw [if_neg hb]
  have hchild : ∀ x, d1.nextSibling ph = some x → d1.parent x = some p0 := by
    intro x hx
    by_cases hxc : x = c
    · subst hxc
      obtain ⟨-, h2⟩ := hsibc hx
      rw [hsib, h2] at hx
      by_cases hb : p0 = body
      · rw [hparc, hb]
      · rw [if_neg hb] at hx; cases hx
    · have hx2 : m2.head? = some x := by
        rw [← href, if_neg (by rw [hx]; intro e; exact hxc (Option.some.inj e)), hx]
      rw [hd1p, Function.update_noteq hxc]
      exact (hhead x hx2).2.2.2
  have hins : (match m2.head? with
      | none => (m1 ++ ph :: m2) ++ [c]
      | some r => insertBeforeIn c r (m1 ++ ph :: m2)) = m1 ++ ph :: c :: m2 := by
    cases m2 with
    | nil => simp
    | cons r t =>
      obtain ⟨-, hrp, hr1, -⟩ := hhead r rfl
      have e1 : m1 ++ ph :: r :: t = (m1 ++ [ph]) ++ r :: t := by simp
      simp only [List.head?_cons, e1]
      rw [insertBeforeIn_append]
      · simp
      · intro hm
        rcases List.mem_append.mp hm with hm | hm
        · exact hr1 hm
        · exact hrp (List.mem_singleton.mp hm)
  simp only [toggleFullscreen, relocateAfterPlaceholder, Bool.not_true, hd1]
  simp only [Bool.false_eq_true, if_false, hpar1,
    insertBefore_eq d1 p0 c (d1.nextSibling ph) hanc hchild, href, hrem, hM,
    Function.update_idem, hins]

theorem following_eq_some (n x : Nat) (l : List Nat) (h : following n l = some x) :
    ∃ l1 l2, l = l1 ++ n :: x :: l2 ∧ n ∉ l1 := by
  induction l with
  | nil => simp [following] at h
  | cons y l ih =>
    by_cases hy : y = n
    · subst hy
      simp only [following, if_true] at h
      cases l with
      | nil => simp at h
      | cons z t =>
        simp only [List.head?_cons, Option.some.injEq] at h
        subst h
        exact ⟨[], t, rfl, by simp⟩
    · simp only [following, if_neg hy] at h
      obtain ⟨l1, l2, e, hn⟩ := ih h
      refine ⟨y :: l1, l2, by rw [e]; rfl, ?_⟩
      intro hm
      rcases List.mem_cons.mp hm with hm | hm
      · exact hy hm.symm
      · exact hn hm

theorem wellPlaced_sampleWorld : WellPlaced sampleWorld 2 1 1 where
  placeholder := rfl
  parent_placeholder := rfl
  parent_container := rfl
  distinct := by decide
  mem_placeholder := by decide
  nodup := by decide
  nodup_container := by decide
  unique := by
    intro x hx
    simp only [sampleWorld] at hx
    split_ifs at hx with h0 h1 h3
    · simp at hx
    · exact h1
    · simp at hx
    · simp at hx
  parent_of_child := by decide
  not_above_body := by decide
  not_above_parent := by decide

/-- C8: from a non-fullscreen state in which the tree around the container and the
placeholder is well formed, `toggleFullscreen()` called twice succeeds both times;
after the first call the marker class is present and the container is the last child
of the body; after the second the class is absent and the container is a child of the
placeholder's parent, immediately following the placeholder; and when the container
started immediately behind the placeholder, the whole state is the original one again. -/
theorem toggle_twice_restores (w : World) (ph p0 q : Nat)
    (hfs : w.fullscreenMode = false) (h : WellPlaced w ph p0 q) :
    ∃ w1 w2, toggleFullscreen w = .ok w1 ∧ toggleFullscreen w1 = .ok w2 ∧
      w1.fullscreenMode = true ∧
      w1.dom.parent w.flipbookContainer = some w.body ∧
      (w1.dom.children w.body).getLast? = some w.flipbookContainer ∧
      w2.fullscreenMode = false ∧
      w2.dom.parent w.flipbookContainer = some p0 ∧
      w2.dom.parent ph = some p0 ∧
      w2.dom.nextSibling ph = some w.flipbookContainer ∧
      (w.dom.nextSibling ph = some w.flipbookContainer → w2 = w) := by
  have hne := h.distinct
  have hmemK : ph ∈ Function.update w.dom.children q
      ((w.dom.children q).erase w.flipbookContainer) p0 := by
    by_cases hx : p0 = q
    · rw [hx, Function.update_same]
      exact (List.mem_erase_of_ne hne).mpr (hx ▸ h.mem_placeholder)
    · rw [Function.update_noteq hx]
      exact h.mem_placeholder
  have hndK : (Function.update w.dom.children q
      ((w.dom.children q).erase w.flipbookContainer) p0).Nodup := by
    by_cases hx : p0 = q
    · rw [hx, Function.update_same]
      exact h.nodup_container.erase _
    · rw [Function.update_noteq hx]
      exact h.nodup
  obtain ⟨m1, m2, hM⟩ := List.append_of_mem hmemK
  rw [hM] at hndK
  have hp1 : ph ∉ m1 := fun hm => (List.nodup_append.mp hndK).2.2 hm (by simp)
  have e1 := toggle_enter w ph p0 q hfs h
  have e2 := toggle_exit w ph p0 q m1 m2 hfs h hM
  refine ⟨_, _, e1, e2, rfl, ?_, ?_, hfs, ?_, ?_, ?_, ?_⟩
  · simp only [Function.update_same]
  · simp only [Function.update_same, List.getLast?_append, List.getLast?_singleton]
    rfl
  · simp only [Function.update_same]
  · simp only [Function.update_noteq hne]
    exact h.parent_placeholder
  · simp only [Dom.nextSibling, Function.update_noteq hne, h.parent_placeholder,
      Function.update_same]
    rw [following_append _ _ _ hp1]
    rfl
  · intro hadj
    simp only [Dom.nextSibling, h.parent_placeholder] at hadj
    obtain ⟨l1, l2, hl, hl1⟩ := following_eq_some _ _ _ hadj
    have hq : p0 = q := h.unique p0 (by rw [hl]; simp)
    subst hq
    have hnd := h.nodup
    rw [hl] at hnd
    have hc1 : w.flipbookContainer ∉ l1 ++ [ph] := by
      intro hm
      rcases List.mem_append.mp hm with hm | hm
      · exact (List.nodup_append.mp hnd).2.2 hm (by simp)
      · exact hne (List.mem_singleton.mp hm).symm
    have hM2 : Function.update w.dom.children p0
        ((w.dom.children p0).erase w.flipbookContainer) p0 = l1 ++ ph :: l2 := by
      rw [Function.update_same, hl]
      have : l1 ++ ph :: w.flipbookContainer :: l2 = (l1 ++ [ph]) ++ w.flipbookContainer :: l2 := by
        simp
      rw [this, erase_middle _ _ _ hc1]
      simp
    have e3 := toggle_exit w ph p0 p0 l1 l2 hfs h hM2
    rw [e2] at e3
    rw [Except.ok.inj e3]
    obtain ⟨dom, body, c, placeholder, fullscreenMode⟩ := w
    obtain ⟨parent, children, height⟩ := dom
    simp only at hl
    have hpc : parent c = some p0 := h.parent_container
    simp only [Function.update_idem]
    rw [← hl, ← hpc, Function.update_eq_self, Function.update_eq_self]

theorem toggle_twice_restores_witness :
    sampleWorld.fullscreenMode = false ∧ WellPlaced sampleWorld 2 1 1 ∧
    ∃ w1 w2, toggleFullscreen sampleWorld = .ok w1 ∧ toggleFullscreen w1 = .ok w2 ∧
      w1.fullscreenMode = true ∧
      w1.dom.parent sampleWorld.flipbookContainer = some sampleWorld.body ∧
      (w1.dom.children sampleWorld.body).getLast? = some sampleWorld.flipbookContainer ∧
      w2.fullscreenMode = false ∧
      w2.dom.parent sampleWorld.flipbookContainer = some 1 ∧
      w2.dom.parent 2 = some 1 ∧
      w2.dom.nextSibling 2 = some sampleWorld.flipbookContainer ∧
      (sampleWorld.dom.nextSibling 2 = some sampleWorld.flipbookContainer → w2 = sampleWorld) :=
  ⟨rfl, wellPlaced_sampleWorld,
    toggle_twice_restores sampleWorld 2 1 1 rfl wellPlaced_sampleWorld⟩

/-- C9 fails on the code: in fullscreen (entered by `toggleFullscreen()` on the sample
page) a click on the container background only removes the marker class; the container
stays the last child of the body and the placeholder has no following sibling, whereas
the Escape key on the same state moves the container back behind the placeholder. -/
theorem background_click_leaves_container_in_body :
    (toggleFullscreen sampleWorld).map observe = .ok (true, some 0, none, [1, 3], [2]) ∧
    (toggleFullscreen sampleWorld).map (fun w => observe (closeFullscreen w.flipbookContainer w))
      = .ok (false, some 0, none, [1, 3], [2]) ∧
    ((toggleFullscreen sampleWorld).bind (onKeydown "Escape")).map observe
      = .ok (false, some 1, some 3, [1], [2, 3]) ∧
    ((toggleFullscreen sampleWorld).bind toggleFullscreen).map observe
      = .ok (false, some 1, some 3, [1], [2, 3]) :=
  ⟨rfl, rfl, rfl, rfl⟩

end Fullscreen

namespace Debounce

theorem timerDelay_of_lt (wait : Nat) (h : wait < 2 ^ 31) : timerDelay wait = wait := by
  have h1 : wait % 2 ^ 32 = wait := Nat.mod_eq_of_lt (by omega)
  unfold timerDelay
  rw [h1, if_pos h]

theorem nextDue_singleton {α : Type} (t : Nat) (p : Pending α) :
    nextDue t [p] = if p.due ≤ t then some p else none := by
  simp [nextDue]

/-- After a call at time `t`, exactly its timer is pending: any older timer is gone. -/
theorem executedFunction_single {α : Type} (wait : Nat) (args : α) (s : State α)
    (h : s.pending = [] ∨ ∃ p, s.pending = [p] ∧ s.timeout = some p.id) :
    (executedFunction wait args s).pending =
      [{ id := s.nextId, due := s.now + timerDelay wait, args := args }] ∧
    (executedFunction wait args s).timeout = some s.nextId ∧
    (executedFunction wait args s).executed = s.executed ∧
    (executedFunction wait args s).now = s.now := by
  rcases h with h | ⟨p, h, ht⟩
  · simp [executedFunction, clearTimeout, h]
  · simp [executedFunction, clearTimeout, h, ht]

theorem advanceTo_early {α : Type} (t : Nat) (s : State α) (p : Pending α)
    (h : s.pending = [p]) (ht : t < p.due) :
    advanceTo t s = { s with now := t } := by
  have : ¬ p.due ≤ t := by omega
  simp [advanceTo, runDue, h, nextDue_singleton, this]

theorem advanceTo_late {α : Type} (t : Nat) (s : State α) (p : Pending α)
    (h : s.pending = [p]) (ht : p.due ≤ t) :
    (advanceTo t s).executed = s.executed ++ [(p.due, p.args)] ∧
    (advanceTo t s).pending = [] := by
  simp [advanceTo, runDue, h, nextDue_singleton, ht, later, clearTimeout, nextDue]

theorem runCalls_rapid {α : Type} (wait : Nat) (hw : wait < 2 ^ 31)
    (calls : List (Nat × α)) (c : Nat × α)
    (s : State α) (p : Pending α) (hp : s.pending = [p]) (hto : s.timeout = some p.id)
    (hdue : p.due = s.now + wait) (hargs : p.args = c.2) (hnow : s.now = c.1)
    (hr : Rapid wait (c :: calls)) :
    ∃ id, (runCalls wait calls s).pending =
        [{ id := id, due := ((c :: calls).getLast (by simp)).1 + wait,
           args := ((c :: calls).getLast (by simp)).2 }] ∧
      (runCalls wait calls s).timeout = some id ∧
      (runCalls wait calls s).executed = s.executed ∧
      (runCalls wait calls s).now = ((c :: calls).getLast (by simp)).1 := by
  induction calls generalizing c s p with
  | nil =>
    refine ⟨p.id, ?_, hto, rfl, hnow⟩
    simp only [runCalls, hp, List.getLast_singleton]
    rw [← hnow, ← hargs, ← hdue]
  | cons d rest ih =>
    obtain ⟨t, args⟩ := d
    obtain ⟨h1, h2, h3⟩ := hr
    simp only at h1 h2
    have hearly : t < p.due := by rw [hdue, hnow]; exact h2
    have hadv := advanceTo_early t s p hp hearly
    obtain ⟨e1, e2, e3, e4⟩ := executedFunction_single wait args (advanceTo t s)
      (Or.inr ⟨p, by rw [hadv]; exact hp, by rw [hadv]; exact hto⟩)
    rw [timerDelay_of_lt wait hw] at e1
    obtain ⟨id, g1, g2, g3, g4⟩ := ih (t, args) (executedFunction wait args (advanceTo t s))
      _ e1 e2 (by simp only; rw [e4]) rfl (by rw [e4, hadv]) h3
    refine ⟨id, ?_, ?_, ?_, ?_⟩
    · simp only [runCalls, List.getLast_cons_cons]
      exact g1
    · exact g2
    · simp only [runCalls]
      rw [g3, e3, hadv]
    · simp only [runCalls, List.getLast_cons_cons]
      exact g4

/-- C6, as stated, fails for a wait of `2 ^ 31` ms or more: with `wait = 2147483648` the
host's timer delay is 0, so of two calls at 0 and 1000 ms (less than `wait` apart) the
first has already run `func` when the second returns, and `func` runs a second time for
the second call. -/
theorem debounce_wait_overflow :
    Rapid 2147483648 [(0, "a"), (1000, "b")] ∧
    timerDelay 2147483648 = 0 ∧
    (runCalls 2147483648 [(0, "a"), (1000, "b")] (fresh String 0)).executed = [(0, "a")] ∧
    (advanceTo 1000 (runCalls 2147483648 [(0, "a"), (1000, "b")] (fresh String 0))).executed
      = [(0, "a"), (1000, "b")] :=
  ⟨⟨by decide, by decide, trivial⟩, by decide, by decide, by decide⟩

/-- C6, amended: for `0 < wait < 2 ^ 31`, when the function returned by
`debounce(func, wait)` is called `K >= 1` times, each call no earlier than and less than
`wait` after the one before, `func` has not run when the last call returns and exactly
one timer is pending (every earlier one was cancelled): the last call's, due at (time of
the last call) + `wait`.  Until then `func` does not run; from then on it has run exactly
once, at that time and with the arguments of the last call, and no timer is left. -/
theorem debounce_runs_last_call_once {α : Type} (wait t0 : Nat) (c : Nat × α)
    (calls : List (Nat × α)) (_hpos : 0 < wait) (hw : wait < 2 ^ 31)
    (hr : Rapid wait (c :: calls)) :
    (runCalls wait (c :: calls) (fresh α t0)).executed = [] ∧
    (∃ id, (runCalls wait (c :: calls) (fresh α t0)).pending =
      [{ id := id, due := ((c :: calls).getLast (by simp)).1 + wait,
         args := ((c :: calls).getLast (by simp)).2 }]) ∧
    (∀ T, T < ((c :: calls).getLast (by simp)).1 + wait →
      (advanceTo T (runCalls wait (c :: calls) (fresh α t0))).executed = []) ∧
    (∀ T, ((c :: calls).getLast (by simp)).1 + wait ≤ T →
      (advanceTo T (runCalls wait (c :: calls) (fresh α t0))).executed =
        [(((c :: calls).getLast (by simp)).1 + wait, ((c :: calls).getLast (by simp)).2)] ∧
      (advanceTo T (runCalls wait (c :: calls) (fresh α t0))).pending = []) := by
  obtain ⟨t, args⟩ := c
  have hadv : advanceTo t (fresh α t0) = fresh α t := by
    simp [advanceTo, runDue, fresh]
  obtain ⟨e1, e2, e3, e4⟩ := executedFunction_single wait args (fresh α t) (Or.inl rfl)
  rw [timerDelay_of_lt wait hw] at e1
  obtain ⟨id, g1, g2, g3, g4⟩ := runCalls_rapid wait hw calls (t, args)
    (executedFunction wait args (fresh α t)) _ e1 e2 (by simp only; rw [e4]) rfl
    (by rw [e4]; rfl) hr
  have hrun : runCalls wait ((t, args) :: calls) (fresh α t0) =
      runCalls wait calls (executedFunction wait args (fresh α t)) := by
    simp only [runCalls, hadv]
  rw [hrun]
  have hex : (runCalls wait calls (executedFunction wait args (fresh α t))).executed = [] := by
    rw [g3, e3]; rfl
  refine ⟨hex, ⟨id, g1⟩, ?_, ?_⟩
  · intro T hT
    rw [advanceTo_early T _ _ g1 hT]
    exact hex
  · intro T hT
    obtain ⟨a, b⟩ := advanceTo_late T _ _ g1 hT
    rw [a, hex]
    exact ⟨rfl, b⟩

theorem debounce_runs_last_call_once_witness :
    0 < 250 ∧ 250 < 2 ^ 31 ∧
    Rapid 250 [(0, "a"), (100, "b"), (349, "c")] ∧
    (runCalls 250 [(0, "a"), (100, "b"), (349, "c")] (fresh String 0)).executed = [] ∧
    (∃ id, (runCalls 250 [(0, "a"), (100, "b"), (349, "c")] (fresh String 0)).pending =
      [{ id := id, due := ([(0, "a"), (100, "b"), (349, "c")].getLast (by simp)).1 + 250,
         args := ([(0, "a"), (100, "b"), (349, "c")].getLast (by simp)).2 }]) ∧
    (∀ T, T < ([(0, "a"), (100, "b"), (349, "c")].getLast (by simp)).1 + 250 →
      (advanceTo T (runCalls 250 [(0, "a"), (100, "b"), (349, "c")] (fresh String 0))).executed
        = []) ∧
    (∀ T, ([(0, "a"), (100, "b"), (349, "c")].getLast (by simp)).1 + 250 ≤ T →
      (advanceTo T (runCalls 250 [(0, "a"), (100, "b"), (349, "c")] (fresh String 0))).executed =
        [(([(0, "a"), (100, "b"), (349, "c")].getLast (by simp)).1 + 250,
          ([(0, "a"), (100, "b"), (349, "c")].getLast (by simp)).2)] ∧
      (advanceTo T (runCalls 250 [(0, "a"), (100, "b"), (349, "c")] (fresh String 0))).pending
        = []) :=
  ⟨by decide, by decide, by simp [Rapid],
    debounce_runs_last_call_once 250 0 (0, "a") [(100, "b"), (349, "c")] (by decide) (by decide)
      (by simp [Rapid])⟩

/-- A concrete run: three calls at 0, 100 and 349 ms with a 250 ms wait execute `func`
once, at 599 ms, with the arguments of the third call. -/
theorem debounce_sample_run :
    (advanceTo 1000 (runCalls 250 [(0, "a"), (100, "b"), (349, "c")] (fresh String 0))).executed
      = [(599, "c")] := by
  decide

end Debounce

namespace Highlight

theorem forEachRect_eq {R : Type} [Sub R] (sp : Span R) (index : Nat) (rects : List (Rect R)) :
    forEachRect sp index rects =
      { sp with
        layers := sp.layers ++ markers sp.bounding sp.created index rects
        created := sp.created + rects.length
        frameCallbacks := sp.frameCallbacks ++ requested sp.created rects } := by
  induction rects generalizing sp index with
  | nil => simp [forEachRect, markers, requested]
  | cons rect rest ih =>
    simp only [forEachRect, ih, markers, requested, List.append_assoc, List.singleton_append,
      List.length_cons]
    congr 1
    omega

theorem length_markers {R : Type} [Sub R] (bounding : Nat → Rect R) (firstId index : Nat)
    (rects : List (Rect R)) : (markers bounding firstId index rects).length = rects.length := by
  induction rects generalizing firstId index with
  | nil => rfl
  | cons rect rest ih => simp [markers, ih]

theorem getElem?_markers {R : Type} [Sub R] (bounding : Nat → Rect R) (firstId index : Nat)
    (rects : List (Rect R)) (i : Nat) :
    (markers bounding firstId index rects)[i]? = (rects[i]?).map (fun rect =>
      { id := firstId + i
        top := rect.top - (bounding (index + i)).top
        left := rect.left - (bounding (index + i)).left
        height := rect.height
        width := none
        transitionDelay := (index + i) * 600 }) := by
  induction rects generalizing firstId index i with
  | nil => simp [markers]
  | cons rect rest ih =>
    cases i with
    | zero => simp [markers]
    | succ i =>
      simp only [markers, List.getElem?_cons_succ, ih]
      have e1 : firstId + 1 + i = firstId + (i + 1) := by omega
      have e2 : index + 1 + i = index + (i + 1) := by omega
      rw [e1, e2]

theorem mem_requested {R : Type} (firstId : Nat) (rects : List (Rect R)) (cb : Nat × R) :
    cb ∈ requested firstId rects ↔ ∃ i rect, rects[i]? = some rect ∧ cb = (firstId + i, rect.width) := by
  induction rects generalizing firstId with
  | nil => simp [requested]
  | cons rect rest ih =>
    simp only [requested, List.mem_cons, ih]
    constructor
    · rintro (h | ⟨i, r, hr, h⟩)
      · exact ⟨0, rect, by simp, h⟩
      · exact ⟨i + 1, r, by simpa using hr, by rw [h]; congr 1; omega⟩
    · rintro ⟨i, r, hr, h⟩
      cases i with
      | zero =>
        left
        simp only [List.getElem?_cons_zero, Option.some.injEq] at hr
        rw [h, ← hr]; rfl
      | succ i =>
        right
        exact ⟨i, r, by simpa using hr, by rw [h]; congr 1; omega⟩

theorem foldl_map_setWidth {R : Type} (cbs : List (Nat × R)) (layers : List (Layer R)) :
    cbs.foldl (fun layers cb => layers.map (setWidth cb)) layers =
      layers.map (fun l => cbs.foldl (fun l cb => setWidth cb l) l) := by
  induction cbs generalizing layers with
  | nil => simp
  | cons cb cbs ih => simp [List.foldl_cons, ih, List.map_map, Function.comp_def]

theorem foldl_setWidth_fields {R : Type} (cbs : List (Nat × R)) (l : Layer R) :
    (cbs.foldl (fun l cb => setWidth cb l) l).id = l.id ∧
    (cbs.foldl (fun l cb => setWidth cb l) l).top = l.top ∧
    (cbs.foldl (fun l cb => setWidth cb l) l).left = l.left ∧
    (cbs.foldl (fun l cb => setWidth cb l) l).height = l.height ∧
    (cbs.foldl (fun l cb => setWidth cb l) l).transitionDelay = l.transitionDelay := by
  induction cbs generalizing l with
  | nil => simp
  | cons cb cbs ih =>
    obtain ⟨a, b, c, d, e⟩ := ih (setWidth cb l)
    simp only [List.foldl_cons]
    rw [a, b, c, d, e]
    unfold setWidth
    split <;> simp

theorem foldl_setWidth_keep {R : Type} (cbs : List (Nat × R)) (l : Layer R) (w : R)
    (hw : l.width = some w) (h : ∀ cb ∈ cbs, cb.1 = l.id → cb.2 = w) :
    (cbs.foldl (fun l cb => setWidth cb l) l).width = some w := by
  induction cbs generalizing l with
  | nil => exact hw
  | cons cb cbs ih =>
    simp only [List.foldl_cons]
    apply ih
    · unfold setWidth
      split
      · rename_i hid
        simp only
        rw [h cb (by simp) hid.symm]
      · exact hw
    · intro cb1 hcb1 hid
      apply h cb1 (by simp [hcb1])
      rw [hid]
      unfold setWidth
      split <;> rfl

theorem foldl_setWidth_last {R : Type} (cbs : List (Nat × R)) (l : Layer R) (w : R)
    (hmem : (l.id, w) ∈ cbs) (h : ∀ cb ∈ cbs, cb.1 = l.id → cb.2 = w) :
    (cbs.foldl (fun l cb => setWidth cb l) l).width = some w := by
  induction cbs generalizing l with
  | nil => simp at hmem
  | cons cb cbs ih =>
    have hid : (setWidth cb l).id = l.id := by
      unfold setWidth
      split <;> rfl
    simp only [List.foldl_cons]
    by_cases hin : (l.id, w) ∈ cbs
    · apply ih
      · rw [hid]; exact hin
      · intro cb1 hcb1 h1
        rw [hid] at h1
        exact h cb1 (by simp [hcb1]) h1
    · have hcb : cb = (l.id, w) := by
        rcases List.mem_cons.mp hmem with e | e
        · exact e.symm
        · exact absurd e hin
      apply foldl_setWidth_keep
      · rw [hcb]
        simp [setWidth]
      · intro cb1 hcb1 h1
        rw [hid] at h1
        exact h cb1 (by simp [hcb1]) h1

theorem animateSpan_eq {R : Type} [Sub R] (sp : Span R) :
    animateSpan sp =
      { sp with
        layers := markers sp.bounding sp.created 0 sp.rects
        created := sp.created + sp.rects.length
        frameCallbacks := sp.frameCallbacks ++ requested sp.created sp.rects } := by
  simp [animateSpan, forEachRect_eq]

theorem geometry_markers {R : Type} [Sub R] (bounding : Nat → Rect R) (a b index : Nat)
    (rects : List (Rect R)) :
    (markers bounding a index rects).map Layer.geometry =
      (markers bounding b index rects).map Layer.geometry := by
  induction rects generalizing a b index with
  | nil => rfl
  | cons rect rest ih =>
    simp only [markers, List.map_cons, Layer.geometry]
    rw [show List.map Layer.geometry (markers bounding (a + 1) (index + 1) rest) =
      List.map Layer.geometry (markers bounding (b + 1) (index + 1) rest) from ih _ _ _]

theorem delays_markers {R : Type} [Sub R] (bounding : Nat → Rect R) (firstId index : Nat)
    (rects : List (Rect R)) :
    (markers bounding firstId index rects).map Layer.transitionDelay =
      (List.range' index rects.length).map (fun i => i * 600) := by
  induction rects generalizing firstId index with
  | nil => rfl
  | cons rect rest ih =>
    simp only [markers, List.map_cons, List.length_cons, List.range'_succ, ih]

theorem layer_eq_of_fields {R : Type} (a b : Layer R) (h1 : a.id = b.id) (h2 : a.top = b.top)
    (h3 : a.left = b.left) (h4 : a.height = b.height) (h5 : a.width = b.width)
    (h6 : a.transitionDelay = b.transitionDelay) : a = b := by
  cases a; cases b
  simp only at h1 h2 h3 h4 h5 h6
  simp [h1, h2, h3, h4, h5, h6]

/-- C7: for a highlight span whose contents occupy the rectangles `r_0 .. r_(N-1)` and
whose bounding rectangle is `container` throughout the call, whatever layers and
pending frame callbacks it held before, `animateHighlight` leaves it with exactly `N`
layers; layer `i` has `top = r_i.top - container.top`, `left = r_i.left - container.left`,
`height = r_i.height`, no inline width (so it shows the stylesheet's width 0) and
transition delay `i * 600`, the delays being pairwise distinct; after the next animation
frame it is the same layer with width `r_i.width`; and running `animateHighlight` again on
the unchanged layout gives `N` layers of the same geometry. -/
theorem animateHighlight_layers {R : Type} [Sub R] [Zero R] (spans : List (Span R)) (k : Nat)
    (sp : Span R) (hsp : spans[k]? = some sp) (container : Rect R)
    (hlayout : ∀ i, sp.bounding i = container) :
    ∃ sp1 sp2 sp3,
      (animateHighlight spans)[k]? = some sp1 ∧
      (animationFrame (animateHighlight spans))[k]? = some sp2 ∧
      (animateHighlight (animateHighlight spans))[k]? = some sp3 ∧
      sp1.layers.length = sp.rects.length ∧
      sp2.layers.length = sp.rects.length ∧
      sp3.layers.length = sp.rects.length ∧
      sp3.layers.map Layer.geometry = sp1.layers.map Layer.geometry ∧
      (sp1.layers.map Layer.transitionDelay).Nodup ∧
      ∀ i rect, sp.rects[i]? = some rect →
        ∃ l1 l2 : Layer R, sp1.layers[i]? = some l1 ∧ sp2.layers[i]? = some l2 ∧
          l1.top = rect.top - container.top ∧ l1.left = rect.left - container.left ∧
          l1.height = rect.height ∧ l1.width = none ∧ l1.shownWidth = (0 : R) ∧
          l1.transitionDelay = i * 600 ∧
          l2 = { l1 with width := some rect.width } := by
  refine ⟨animateSpan sp, frameSpan (animateSpan sp), animateSpan (animateSpan sp),
    ?_, ?_, ?_, ?_, ?_, ?_, ?_, ?_, ?_⟩
  · simp [animateHighlight, hsp]
  · simp [animationFrame, animateHighlight, hsp]
  · simp [animateHighlight, hsp]
  · rw [animateSpan_eq]; exact length_markers _ _ _ _
  · simp only [frameSpan, foldl_map_setWidth, List.length_map]
    rw [animateSpan_eq]; exact length_markers _ _ _ _
  · rw [animateSpan_eq, animateSpan_eq]; exact length_markers _ _ _ _
  · rw [animateSpan_eq (animateSpan sp)]
    rw [animateSpan_eq sp]
    exact geometry_markers _ _ _ _ _
  · rw [animateSpan_eq]
    simp only [delays_markers]
    exact (List.nodup_range' 0 sp.rects.length).map (fun a b h => by simpa using h)
  · intro i rect hrect
    have hl1 : (animateSpan sp).layers[i]? = some
        { id := sp.created + i
          top := rect.top - container.top
          left := rect.left - container.left
          height := rect.height
          width := none
          transitionDelay := i * 600 } := by
      rw [animateSpan_eq]
      simp only [getElem?_markers, hrect, Option.map_some', hlayout, Nat.zero_add]
    refine ⟨_, _, hl1, ?_, rfl, rfl, rfl, rfl, rfl, rfl, rfl⟩
    simp only [frameSpan, foldl_map_setWidth, List.getElem?_map, hl1, Option.map_some',
      Option.some.injEq]
    have hcbs : (animateSpan sp).frameCallbacks =
        sp.frameCallbacks ++ requested sp.created sp.rects := by
      rw [animateSpan_eq]
    rw [hcbs, List.foldl_append]
    generalize hl0 : (List.foldl (fun l cb => setWidth cb l)
      ({ id := sp.created + i
         top := rect.top - container.top
         left := rect.left - container.left
         height := rect.height
         width := none
         transitionDelay := i * 600 } : Layer R) sp.frameCallbacks) = l0
    obtain ⟨a0, b0, c0, d0, e0⟩ := foldl_setWidth_fields sp.frameCallbacks
      ({ id := sp.created + i
         top := rect.top - container.top
         left := rect.left - container.left
         height := rect.height
         width := none
         transitionDelay := i * 600 } : Layer R)
    rw [hl0] at a0 b0 c0 d0 e0
    simp only at a0 b0 c0 d0 e0
    obtain ⟨a1, b1, c1, d1, e1⟩ := foldl_setWidth_fields (requested sp.created sp.rects) l0
    have hw : (List.foldl (fun l cb => setWidth cb l) l0 (requested sp.created sp.rects)).width
        = some rect.width := by
      apply foldl_setWidth_last
      · rw [a0]
        exact (mem_requested _ _ _).mpr ⟨i, rect, hrect, rfl⟩
      · intro cb hcb hid
        obtain ⟨j, r, hr, hcbj⟩ := (mem_requested _ _ _).mp hcb
        rw [hcbj, a0] at hid
        simp only at hid
        have hj : j = i := by omega
        subst hj
        rw [hrect] at hr
        rw [hcbj, ← Option.some.inj hr]
    apply layer_eq_of_fields
    · rw [a1, a0]
    · rw [b1, b0]
    · rw [c1, c0]
    · rw [d1, d0]
    · rw [hw]
    · rw [e1, e0]

theorem animateHighlight_layers_witness :
    [sampleSpan][0]? = some sampleSpan ∧
    (∀ i, sampleSpan.bounding i = { top := 100, left := 20, width := 240, height := 36 }) ∧
    ∃ sp1 sp2 sp3,
      (animateHighlight [sampleSpan])[0]? = some sp1 ∧
      (animationFrame (animateHighlight [sampleSpan]))[0]? = some sp2 ∧
      (animateHighlight (animateHighlight [sampleSpan]))[0]? = some sp3 ∧
      sp1.layers.length = sampleSpan.rects.length ∧
      sp2.layers.length = sampleSpan.rects.length ∧
      sp3.layers.length = sampleSpan.rects.length ∧
      sp3.layers.map Layer.geometry = sp1.layers.map Layer.geometry ∧
      (sp1.layers.map Layer.transitionDelay).Nodup ∧
      ∀ i rect, sampleSpan.rects[i]? = some rect →
        ∃ l1 l2 : Layer Int, sp1.layers[i]? = some l1 ∧ sp2.layers[i]? = some l2 ∧
          l1.top = rect.top - (100 : Int) ∧ l1.left = rect.left - (20 : Int) ∧
          l1.height = rect.height ∧ l1.width = none ∧ l1.shownWidth = (0 : Int) ∧
          l1.transitionDelay = i * 600 ∧
          l2 = { l1 with width := some rect.width } :=
  ⟨rfl, fun _ => rfl,
    animateHighlight_layers [sampleSpan] 0 sampleSpan rfl
      { top := 100, left := 20, width := 240, height := 36 } (fun _ => rfl)⟩

/-- The sample span after `animateHighlight` and the next frame: two layers, the stale
one gone. -/
theorem animateHighlight_sample :
    (animationFrame (animateHighlight [sampleSpan])).map (fun sp => sp.layers) =
      [[{ id := 1, top := 10, left := 40, height := 18, width := some 200, transitionDelay := 0 },
        { id := 2, top := 28, left := 0, height := 18, width := some 75,
          transitionDelay := 600 }]] := by
  decide

end Highlight

